import Mathlib

/-!
# ntp-query: wire codec and synchronisation arithmetic

Shallow embedding of `src/ntp-query.c`.

Conventions of the embedding.

* `uint8_t`, `uint32_t`, `uint64_t` values are natural numbers; every operation that can
  leave the width is followed by an explicit `% 2 ^ w`.
* A byte buffer (`uint8_t packet[48]`, or a pointer into it) is a `List Nat` together with
  an offset; `o[k] = v` is `List.set`, `i[k]` is `List.getD _ _ 0`.
* A `double` is the rational number it denotes.  The only inexact `double` operations of
  the program are integer-to-`double` conversions and one multiplication and one
  subtraction of dyadic values; each is the exact result rounded to a 53-bit significand
  (round to nearest, ties to even), see `round53` and `int_to_double`.  `ldexp` by a
  small exponent is exact.
* Text written by `printf` is the list of its bytes.
-/

namespace NtpQuery

/-! ## Machine arithmetic -/

/-- The macro `NTP_EPOCH`: seconds from 1900-01-01 to 1970-01-01. -/
def NTP_EPOCH : Nat := 2208988800

/-- Subtraction of two `uint64_t` values, `a - b` modulo `2 ^ 64`. -/
def u64_sub (a b : Nat) : Nat := (a + 2 ^ 64 - b % 2 ^ 64) % 2 ^ 64

/-- The cast `(int64_t) x` of a `uint64_t` value: two's-complement reinterpretation. -/
def to_int64 (x : Nat) : Int := if x < 2 ^ 63 then (x : Int) else (x : Int) - 2 ^ 64

/-- The cast `(int8_t) b` of a `uint8_t` value. -/
def to_int8 (b : Nat) : Int := if b < 128 then (b : Int) else (b : Int) - 256

/-- Number of binary digits of `n`, computed with `fuel` halvings. -/
def bit_length_aux : Nat → Nat → Nat
  | 0, _ => 0
  | fuel + 1, n => if n = 0 then 0 else bit_length_aux fuel (n / 2) + 1

/-- Number of binary digits of `n` (`0` for `n = 0`); `n` halvings always suffice. -/
def bit_length (n : Nat) : Nat := bit_length_aux n n

/-- Rounding of a natural number to a 53-bit significand, to nearest, ties to even:
the `bit_length n - 53` low bits are dropped and the rest is rounded up when the dropped
part is more than half a unit, or exactly half and the kept part is odd. -/
def round53 (n : Nat) : Nat :=
  let sh := bit_length n - 53
  let q := n >>> sh
  let r := n % 2 ^ sh
  if 2 * r < 2 ^ sh ∨ (2 * r = 2 ^ sh ∧ q % 2 = 0) then q <<< sh else (q + 1) <<< sh

/-- Conversion of an integer (`int64_t`, `uint32_t` or `uint64_t`) to `double`; the result
is again an integer. -/
def int_to_double (z : Int) : Int :=
  if 0 ≤ z then (round53 z.toNat : Int) else -(round53 (-z).toNat : Int)

/-! ## Big-endian accessors -/

/-- The function `put_be64(i, o)` where `o` points at offset `off` of `buf`. -/
def put_be64 (i : Nat) (buf : List Nat) (off : Nat) : List Nat :=
  let buf := buf.set (off + 0) ((i >>> 56) &&& 0xff)
  let buf := buf.set (off + 1) ((i >>> 48) &&& 0xff)
  let buf := buf.set (off + 2) ((i >>> 40) &&& 0xff)
  let buf := buf.set (off + 3) ((i >>> 32) &&& 0xff)
  let buf := buf.set (off + 4) ((i >>> 24) &&& 0xff)
  let buf := buf.set (off + 5) ((i >>> 16) &&& 0xff)
  let buf := buf.set (off + 6) ((i >>> 8) &&& 0xff)
  buf.set (off + 7) (i &&& 0xff)

/-- The function `get_be32(i)` where `i` points at offset `off` of `buf`.  The bytes are
promoted to `int`; the 32-bit pattern of the `int` result is what the conversion to the
return type `uint32_t` keeps. -/
def get_be32 (buf : List Nat) (off : Nat) : Nat :=
  ((buf.getD (off + 0) 0 <<< 24) ||| (buf.getD (off + 1) 0 <<< 16)
    ||| (buf.getD (off + 2) 0 <<< 8) ||| buf.getD (off + 3) 0) % 2 ^ 32

/-- The function `get_be64(i)` where `i` points at offset `off` of `buf`. -/
def get_be64 (buf : List Nat) (off : Nat) : Nat :=
  ((get_be32 buf off <<< 32) % 2 ^ 64) ||| get_be32 buf (off + 4)

/-! ## Timestamp conversions -/

/-- The function `ntp_to_unix`: `ldexp(ntp_ts, -32) - NTP_EPOCH` in `double` arithmetic.
The argument is converted to `double`, scaled exactly, and the difference is rounded. -/
def ntp_to_unix (ntp_ts : Nat) : ℚ :=
  (int_to_double (int_to_double ntp_ts - (NTP_EPOCH : Int) * 2 ^ 32) : ℚ) / 2 ^ 32

/-- The function `get_short_ts_ms`: `ldexp(get_be32(i), -16) * 1000` in `double`
arithmetic. -/
def get_short_ts_ms (buf : List Nat) (off : Nat) : ℚ :=
  (int_to_double (int_to_double (get_be32 buf off) * 1000) : ℚ) / 2 ^ 16

/-- The function `ntp_gettimeofday`, as a function of the `struct timeval` that
`gettimeofday` filled in: `tv_sec` and `tv_usec` are signed and cast to `uint64_t`. -/
def ntp_gettimeofday (tv_sec tv_usec : Int) : Nat :=
  let sec := (tv_sec % 2 ^ 64).toNat
  let usec := (tv_usec % 2 ^ 64).toNat
  ((((sec + NTP_EPOCH) % 2 ^ 64) <<< 32) % 2 ^ 64) ||| (((usec <<< 32) % 2 ^ 64) / 1000000)

/-! ## Text helpers -/

/-- Bytes of a string literal of the source (all of them ASCII). -/
def ascii (s : String) : List Nat := s.toList.map Char.toNat

/-- What `printf("%s", p)` writes for a buffer `p`: the bytes before the first NUL. -/
def cstr (bytes : List Nat) : List Nat := bytes.takeWhile (fun b => b ≠ 0)

/-- Decimal digits of `n`, as `printf("%u")` writes them. -/
def decimal (n : Nat) : List Nat := (Nat.toDigits 10 n).map Char.toNat

/-- Library function `inet_ntop(AF_INET, ...)` on the four address bytes in memory order:
the dotted-decimal text. -/
def inet_ntop_AF_INET (a : List Nat) : List Nat :=
  decimal (a.getD 0 0) ++ ascii "." ++ decimal (a.getD 1 0) ++ ascii "." ++
    decimal (a.getD 2 0) ++ ascii "." ++ decimal (a.getD 3 0)

/-- What `printf("%08x", v)` writes: lower-case hexadecimal, zero-padded to 8 digits. -/
def printf_08x (v : Nat) : List Nat :=
  let ds := (Nat.toDigits 16 v).map Char.toNat
  List.replicate (8 - ds.length) 48 ++ ds

/-! ## The query -/

/-- The request of `sntp_query` as it stands when `sendto` is called (lines 61-78):
a zeroed 48-byte buffer, the header byte, the stratum byte, and `org` at offset 40. -/
def sntp_query_request (org : Nat) : List Nat :=
  let packet := List.replicate 48 0
  let packet := packet.set 0 ((3 <<< 6) ||| (4 <<< 3) ||| 3)
  let packet := packet.set 1 16
  put_be64 org packet 40

/-- The text that `sntp_query` prints after `refid = ` (lines 103-115), from the received
packet and from whether `ai->ai_family == AF_INET`. -/
def sntp_query_refid (family_is_AF_INET : Bool) (packet : List Nat) : List Nat :=
  if packet.getD 1 0 = 0 ∨ packet.getD 1 0 = 1 then
    let refid := [packet.getD 12 0, packet.getD 13 0, packet.getD 14 0, packet.getD 15 0, 0]
    cstr (if packet.getD 1 0 = 0 then ascii "kod" else ascii "clock") ++ ascii ":" ++ cstr refid
  else if family_is_AF_INET then
    cstr (inet_ntop_AF_INET
      [packet.getD 12 0, packet.getD 13 0, packet.getD 14 0, packet.getD 15 0] ++ [0])
  else
    ascii "0x" ++ printf_08x (get_be32 packet 12)

/-- The value printed as `offset (theta)` (line 132):
`ldexp((int64_t) ((rcv - org) - (dst - xmt)), -33)`. -/
def offset_theta (org rcv xmt dst : Nat) : ℚ :=
  (int_to_double (to_int64 (u64_sub (u64_sub rcv org) (u64_sub dst xmt))) : ℚ) / 2 ^ 33

/-- The value printed as `delay (delta)` (line 133):
`ldexp((int64_t) ((dst - org) - (xmt - rcv)), -32)`. -/
def delay_delta (org rcv xmt dst : Nat) : ℚ :=
  (int_to_double (to_int64 (u64_sub (u64_sub dst org) (u64_sub xmt rcv))) : ℚ) / 2 ^ 32

/-- What `read(s, packet, sizeof(packet))` did: it failed (returned `-1`), or it stored
the given bytes, at most 48, at the start of the buffer and returned their number. -/
inductive ReadResult where
  | failed
  | stored (bytes : List Nat)

/-- Everything `sntp_query` obtains from outside during one call. -/
structure World where
  family_is_AF_INET : Bool
  socket_fails : Bool
  send_time : Int × Int
  sendto_fails : Bool
  read_result : ReadResult
  errno_is_EINTR : Bool
  recv_time : Int × Int

/-- The values given to the `printf` calls of a completed query. -/
structure Report where
  li : Nat
  vn : Nat
  mode : Nat
  stratum : Nat
  poll : Nat
  precision : Int
  root_delay : ℚ
  root_dispersion : ℚ
  refid : List Nat
  ref : ℚ
  org : ℚ
  rcv : ℚ
  xmt : ℚ
  dst : ℚ
  offset : ℚ
  delay : ℚ

/-- What one call of `sntp_query` writes: one of the four error lines, or the report,
together with the two numbers of the `our org is ... but the server replied with ...`
line when that line is written. -/
inductive Outcome where
  | perror_socket
  | perror_sendto
  | skipping
  | perror_read
  | report (r : Report) (mismatch : Option (Nat × Nat))

/-- The function `sntp_query`. -/
def sntp_query (w : World) : Outcome :=
  if w.socket_fails then Outcome.perror_socket else
  let org := ntp_gettimeofday w.send_time.1 w.send_time.2
  let packet := sntp_query_request org
  if w.sendto_fails then Outcome.perror_sendto else
  let short : Bool := match w.read_result with
    | ReadResult.failed => true
    | ReadResult.stored bytes => decide (bytes.length < 48)
  if short then
    if w.errno_is_EINTR then Outcome.skipping else Outcome.perror_read
  else
  let packet : List Nat := match w.read_result with
    | ReadResult.failed => packet
    | ReadResult.stored bytes => (bytes ++ packet.drop bytes.length).take 48
  let dst := ntp_gettimeofday w.recv_time.1 w.recv_time.2
  let b0 := packet.getD 0 0
  let ref := get_be64 packet 16
  let server_org := get_be64 packet 24
  let rcv := get_be64 packet 32
  let xmt := get_be64 packet 40
  Outcome.report
    { li := (b0 >>> 6) &&& 3
      vn := (b0 >>> 3) &&& 7
      mode := b0 &&& 7
      stratum := packet.getD 1 0
      poll := packet.getD 2 0
      precision := to_int8 (packet.getD 3 0)
      root_delay := get_short_ts_ms packet 4
      root_dispersion := get_short_ts_ms packet 8
      refid := sntp_query_refid w.family_is_AF_INET packet
      ref := ntp_to_unix ref
      org := ntp_to_unix org
      rcv := ntp_to_unix rcv
      xmt := ntp_to_unix xmt
      dst := ntp_to_unix dst
      offset := offset_theta org rcv xmt dst
      delay := delay_delta org rcv xmt dst }
    (if org ≠ server_org then some (org, server_org) else none)

/-! ## The codec as the specification words it -/

/-- The timestamp for a clock reading `(sec, usec)` as the specification words it:
`(secondsSinceNtpEpoch << 32) | round(fraction * 2^32)` with
`secondsSinceNtpEpoch = sec + 2208988800`, `fraction = usec / 10^6`, and `round` rounding
to the nearest integer. -/
def encode64_rounded (sec usec : Int) : Nat :=
  ((sec + NTP_EPOCH).toNat <<< 32) ||| (round ((usec : ℚ) / 10 ^ 6 * 2 ^ 32)).toNat

/-! ## Helpers for statements and examples -/

/-- The `k` low hexadecimal digits of `v`, most significant first, in lower-case ASCII. -/
def hex_fixed : Nat → Nat → List Nat
  | 0, _ => []
  | k + 1, v => hex_fixed k (v / 16) ++ [(Nat.digitChar (v % 16)).toNat]

/-- A call of `sntp_query` in which `socket` and `sendto` succeed and `read` stores `bytes`;
used for concrete examples. -/
def reply_world (family_is_AF_INET : Bool) (send_time recv_time : Int × Int)
    (bytes : List Nat) (errno_is_EINTR : Bool) : World :=
  { family_is_AF_INET := family_is_AF_INET
    socket_fails := false
    send_time := send_time
    sendto_fails := false
    read_result := ReadResult.stored bytes
    errno_is_EINTR := errno_is_EINTR
    recv_time := recv_time }

/-! ## Auxiliary facts -/

theorem and_ff (i : Nat) : i &&& 0xff = i % 256 := by
  have h : (0xff : Nat) = 2 ^ 8 - 1 := by norm_num
  rw [h, Nat.and_pow_two_sub_one_eq_mod]

theorem request_eq (org : Nat) :
    sntp_query_request org =
      [0xE3, 16] ++ List.replicate 38 0 ++
        [org / 2 ^ 56 % 256, org / 2 ^ 48 % 256, org / 2 ^ 40 % 256, org / 2 ^ 32 % 256,
         org / 2 ^ 24 % 256, org / 2 ^ 16 % 256, org / 2 ^ 8 % 256, org % 256] := by
  simp only [sntp_query_request, put_be64, and_ff, Nat.shiftRight_eq_div_pow]
  rfl

theorem bit_length_aux_le (fuel : Nat) : ∀ n k : Nat, n < 2 ^ k → bit_length_aux fuel n ≤ k := by
  induction fuel with
  | zero => intro n k _; simp [bit_length_aux]
  | succ f ih =>
    intro n k h
    unfold bit_length_aux
    split
    · exact Nat.zero_le _
    · rename_i hn
      cases k with
      | zero => simp at h; exact absurd h hn
      | succ k =>
        have h2 : n / 2 < 2 ^ k := by
          rw [pow_succ] at h
          omega
        exact Nat.succ_le_succ (ih (n / 2) k h2)

theorem round53_of_le (n : Nat) (h : n ≤ 2 ^ 53) : round53 n = n := by
  rcases Nat.lt_or_ge n (2 ^ 53) with hlt | hge
  · have hb : bit_length n - 53 = 0 := by
      have := bit_length_aux_le n n 53 hlt
      unfold bit_length
      omega
    simp [round53, hb, Nat.mod_one]
  · have : n = 2 ^ 53 := le_antisymm h hge
    subst this
    decide

theorem int_to_double_of_abs_le (z : Int) (h : |z| ≤ 2 ^ 53) : int_to_double z = z := by
  have h1 := abs_le.mp h
  unfold int_to_double
  split
  · rw [round53_of_le _ (by omega)]
    omega
  · rw [round53_of_le _ (by omega)]
    omega

theorem to_int64_u64_sub (a b c d : Nat) (ha : a < 2 ^ 64) (hb : b < 2 ^ 64)
    (hc : c < 2 ^ 64) (hd : d < 2 ^ 64)
    (lo : -2 ^ 63 ≤ ((a : Int) - b) - ((c : Int) - d))
    (hi : ((a : Int) - b) - ((c : Int) - d) < 2 ^ 63) :
    to_int64 (u64_sub (u64_sub a b) (u64_sub c d)) = ((a : Int) - b) - ((c : Int) - d) := by
  unfold to_int64 u64_sub
  split <;> omega

/-! ## Request builder -/

/-- C1: for every `uint64_t` value `org`, the request built in `sntp_query` has exactly
48 bytes, byte 0 is `(3<<6)|(4<<3)|3 = 0xE3`, byte 1 is 16, bytes 2..39 are zero, and bytes
40..47 are the big-endian encoding of `org`: eight bytes, each below 256, whose base-256
value with byte 40 most significant is `org`. -/
theorem C1_request_layout (org : Nat) (h : org < 2 ^ 64) :
    (sntp_query_request org).length = 48 ∧
    (sntp_query_request org).getD 0 0 = ((3 <<< 6) ||| (4 <<< 3) ||| 3) ∧
    (sntp_query_request org).getD 0 0 = 0xE3 ∧
    (sntp_query_request org).getD 1 0 = 16 ∧
    (∀ k, 2 ≤ k → k < 40 → (sntp_query_request org).getD k 0 = 0) ∧
    (∀ k, 40 ≤ k → k < 48 → (sntp_query_request org).getD k 0 < 256) ∧
    (sntp_query_request org).getD 40 0 * 2 ^ 56 + (sntp_query_request org).getD 41 0 * 2 ^ 48
      + (sntp_query_request org).getD 42 0 * 2 ^ 40 + (sntp_query_request org).getD 43 0 * 2 ^ 32
      + (sntp_query_request org).getD 44 0 * 2 ^ 24 + (sntp_query_request org).getD 45 0 * 2 ^ 16
      + (sntp_query_request org).getD 46 0 * 2 ^ 8 + (sntp_query_request org).getD 47 0 = org := by
  rw [request_eq]
  refine ⟨rfl, rfl, rfl, rfl, ?_, ?_, ?_⟩
  · intro k h2 h40
    interval_cases k <;> rfl
  · intro k h40 h48
    interval_cases k <;> exact Nat.mod_lt _ (by norm_num)
  · show (org / 2 ^ 56 % 256) * 2 ^ 56 + (org / 2 ^ 48 % 256) * 2 ^ 48
      + (org / 2 ^ 40 % 256) * 2 ^ 40 + (org / 2 ^ 32 % 256) * 2 ^ 32
      + (org / 2 ^ 24 % 256) * 2 ^ 24 + (org / 2 ^ 16 % 256) * 2 ^ 16
      + (org / 2 ^ 8 % 256) * 2 ^ 8 + org % 256 = org
    omega

/-- Witness for C1 at `org = 0x0123456789ABCDEF`. -/
theorem C1_request_layout_witness :
    (0x0123456789ABCDEF : Nat) < 2 ^ 64 ∧
    (sntp_query_request 0x0123456789ABCDEF).length = 48 ∧
    (sntp_query_request 0x0123456789ABCDEF).getD 40 0 = 0x01 ∧
    (sntp_query_request 0x0123456789ABCDEF).getD 47 0 = 0xEF :=
  ⟨by norm_num, (C1_request_layout 0x0123456789ABCDEF (by norm_num)).1, by decide, by decide⟩

/-! ## Synchronisation calculator -/

/-- C2, as stated, fails: with `org = 0`, `rcv = 2^53 + 1`, `xmt = dst = 0` the exact
integer `A = (rcv - org) - (dst - xmt) = 2^53 + 1` lies in `[-2^63, 2^63)`, but the value
printed as offset is `2^53 / 2^33 = 2^20`, not `A / 2^33`: the conversion of the `int64_t`
to `double` rounds `A` to 53 significant bits. -/
theorem C2_counterexample :
    (0 : Nat) < 2 ^ 64 ∧ (2 ^ 53 + 1 : Nat) < 2 ^ 64 ∧
    -2 ^ 63 ≤ (((2 ^ 53 + 1 : Nat) : Int) - (0 : Nat)) - (((0 : Nat) : Int) - (0 : Nat)) ∧
    (((2 ^ 53 + 1 : Nat) : Int) - (0 : Nat)) - (((0 : Nat) : Int) - (0 : Nat)) < 2 ^ 63 ∧
    offset_theta 0 (2 ^ 53 + 1) 0 0 = 2 ^ 20 ∧
    offset_theta 0 (2 ^ 53 + 1) 0 0 ≠
      (((((2 ^ 53 + 1 : Nat) : Int) - (0 : Nat)) - (((0 : Nat) : Int) - (0 : Nat)) : Int) : ℚ)
        / 2 ^ 33 := by
  have e : int_to_double (to_int64 (u64_sub (u64_sub (2 ^ 53 + 1) 0) (u64_sub 0 0))) = 2 ^ 53 := by
    decide
  refine ⟨by norm_num, by norm_num, by norm_num, by norm_num, ?_, ?_⟩
  · rw [offset_theta, e]; norm_num
  · rw [offset_theta, e]; norm_num

/-- C2 (amended): for `uint64_t` timestamps, whenever the exact integer
`A = (rcv - org) - (dst - xmt)` lies in `[-2^63, 2^63)` the printed offset is `A` converted
to `double` (rounded to 53 significant bits) divided by `2^33`, and it is exactly
`A / 2^33` when `|A| ≤ 2^53`; whenever `B = (dst - org) - (xmt - rcv)` lies in
`[-2^63, 2^63)` the printed delay is `B` converted to `double` divided by `2^32`, and it is
exactly `B / 2^32` when `|B| ≤ 2^53`.  The modular subtractions and the signed
reinterpretation reproduce `A` and `B` without sign flip or error. -/
theorem C2_offset_delay_exact_integer (org rcv xmt dst : Nat)
    (ho : org < 2 ^ 64) (hr : rcv < 2 ^ 64) (hx : xmt < 2 ^ 64) (hd : dst < 2 ^ 64) :
    (-2 ^ 63 ≤ ((rcv : Int) - org) - ((dst : Int) - xmt) →
      ((rcv : Int) - org) - ((dst : Int) - xmt) < 2 ^ 63 →
        to_int64 (u64_sub (u64_sub rcv org) (u64_sub dst xmt))
            = ((rcv : Int) - org) - ((dst : Int) - xmt) ∧
        offset_theta org rcv xmt dst
            = (int_to_double (((rcv : Int) - org) - ((dst : Int) - xmt)) : ℚ) / 2 ^ 33 ∧
        (|((rcv : Int) - org) - ((dst : Int) - xmt)| ≤ 2 ^ 53 →
          offset_theta org rcv xmt dst
            = ((((rcv : Int) - org) - ((dst : Int) - xmt) : Int) : ℚ) / 2 ^ 33)) ∧
    (-2 ^ 63 ≤ ((dst : Int) - org) - ((xmt : Int) - rcv) →
      ((dst : Int) - org) - ((xmt : Int) - rcv) < 2 ^ 63 →
        to_int64 (u64_sub (u64_sub dst org) (u64_sub xmt rcv))
            = ((dst : Int) - org) - ((xmt : Int) - rcv) ∧
        delay_delta org rcv xmt dst
            = (int_to_double (((dst : Int) - org) - ((xmt : Int) - rcv)) : ℚ) / 2 ^ 32 ∧
        (|((dst : Int) - org) - ((xmt : Int) - rcv)| ≤ 2 ^ 53 →
          delay_delta org rcv xmt dst
            = ((((dst : Int) - org) - ((xmt : Int) - rcv) : Int) : ℚ) / 2 ^ 32)) := by
  constructor
  · intro lo hi
    have e := to_int64_u64_sub rcv org dst xmt hr ho hd hx lo hi
    refine ⟨e, ?_, ?_⟩
    · rw [offset_theta, e]
    · intro hs
      rw [offset_theta, e, int_to_double_of_abs_le _ hs]
  · intro lo hi
    have e := to_int64_u64_sub dst org xmt rcv hd ho hx hr lo hi
    refine ⟨e, ?_, ?_⟩
    · rw [delay_delta, e]
    · intro hs
      rw [delay_delta, e, int_to_double_of_abs_le _ hs]

/-- Witness for C2 (amended): `org = 100`, `rcv = 105`, `xmt = 106`, `dst = 104`, where
`A = 7` and `B = 3`. -/
theorem C2_offset_delay_exact_integer_witness :
    offset_theta 100 105 106 104 = 7 / 2 ^ 33 ∧ delay_delta 100 105 106 104 = 3 / 2 ^ 32 := by
  obtain ⟨h1, h2⟩ := C2_offset_delay_exact_integer 100 105 106 104
    (by norm_num) (by norm_num) (by norm_num) (by norm_num)
  have a := (h1 (by norm_num) (by norm_num)).2.2 (by norm_num)
  have b := (h2 (by norm_num) (by norm_num)).2.2 (by norm_num)
  constructor
  · rw [a]; norm_num
  · rw [b]; norm_num

/-- C3, as stated, fails: for `org = 0`, `rcv = xmt = 5`, `dst = 10` (symmetric path,
instantaneous server) the printed offset is `0`, not `rcv - org = 5` units of `2^-32` s. -/
theorem C3_counterexample :
    (5 : Nat) = 5 ∧ ((10 : Nat) : Int) - (5 : Nat) = ((5 : Nat) : Int) - (0 : Nat) ∧
    offset_theta 0 5 5 10 = 0 ∧
    offset_theta 0 5 5 10 ≠ ((((5 : Nat) : Int) - (0 : Nat) : Int) : ℚ) / 2 ^ 32 := by
  have e : int_to_double (to_int64 (u64_sub (u64_sub 5 0) (u64_sub 10 5))) = 0 := by decide
  refine ⟨rfl, by norm_num, ?_, ?_⟩
  · rw [offset_theta, e]; norm_num
  · rw [offset_theta, e]; norm_num

/-- C3 (amended): on a symmetric path with an instantaneous server (`rcv = xmt` and
`dst - xmt = rcv - org`) the printed offset is exactly `0`. -/
theorem C3_symmetric_path_offset_zero (org rcv xmt dst : Nat)
    (hs : rcv = xmt) (hp : (dst : Int) - xmt = (rcv : Int) - org) :
    offset_theta org rcv xmt dst = 0 := by
  subst hs
  have e : u64_sub (u64_sub rcv org) (u64_sub dst rcv) = 0 := by
    unfold u64_sub
    omega
  rw [offset_theta, e]
  have z : int_to_double (to_int64 0) = 0 := by decide
  rw [z]
  norm_num

/-- Witness for C3 (amended): the exchange `org = 0`, `rcv = xmt = 5`, `dst = 10`. -/
theorem C3_symmetric_path_offset_zero_witness : offset_theta 0 5 5 10 = 0 :=
  C3_symmetric_path_offset_zero 0 5 5 10 rfl (by norm_num)

/-- C4, as stated, fails: for `org = 0`, `rcv = xmt = 5`, `dst = 2^53 + 1` the server is
instantaneous and `signed64(dst - org) = 2^53 + 1`, but the printed delay is
`2^53 / 2^32 = 2^21`, not `(2^53 + 1) / 2^32`: the conversion to `double` rounds. -/
theorem C4_counterexample :
    (5 : Nat) = 5 ∧ to_int64 (u64_sub (2 ^ 53 + 1) 0) = 2 ^ 53 + 1 ∧
    delay_delta 0 5 5 (2 ^ 53 + 1) = 2 ^ 21 ∧
    delay_delta 0 5 5 (2 ^ 53 + 1) ≠ (to_int64 (u64_sub (2 ^ 53 + 1) 0) : ℚ) / 2 ^ 32 := by
  have e : int_to_double (to_int64 (u64_sub (u64_sub (2 ^ 53 + 1) 0) (u64_sub 5 5))) = 2 ^ 53 := by
    decide
  have f : to_int64 (u64_sub (2 ^ 53 + 1) 0) = 2 ^ 53 + 1 := by decide
  refine ⟨rfl, f, ?_, ?_⟩
  · rw [delay_delta, e]; norm_num
  · rw [delay_delta, e, f]; norm_num

/-- C4 (amended): when the server is instantaneous (`rcv = xmt`) the printed delay is
`signed64(dst - org)`, with `dst - org` taken modulo `2^64`, converted to `double` (rounded
to 53 significant bits) and divided by `2^32`; it is exactly `signed64(dst - org) * 2^-32`
when `|signed64(dst - org)| ≤ 2^53`, and for `org = 0`, `rcv = xmt = 5`, `dst = 10` it is
exactly 10 units. -/
theorem C4_instantaneous_server_delay (org rcv xmt dst : Nat) (hs : rcv = xmt) :
    delay_delta org rcv xmt dst
        = (int_to_double (to_int64 (u64_sub dst org)) : ℚ) / 2 ^ 32 ∧
    (|to_int64 (u64_sub dst org)| ≤ 2 ^ 53 →
      delay_delta org rcv xmt dst = (to_int64 (u64_sub dst org) : ℚ) / 2 ^ 32) ∧
    delay_delta 0 5 5 10 = 10 / 2 ^ 32 := by
  subst hs
  have e : u64_sub (u64_sub dst org) (u64_sub rcv rcv) = u64_sub dst org := by
    unfold u64_sub
    omega
  refine ⟨?_, ?_, ?_⟩
  · rw [delay_delta, e]
  · intro hb
    rw [delay_delta, e, int_to_double_of_abs_le _ hb]
  · have t : int_to_double (to_int64 (u64_sub (u64_sub 10 0) (u64_sub 5 5))) = 10 := by decide
    rw [delay_delta, t]; norm_num

/-- Witness for C4 (amended): `org = 7`, `rcv = xmt = 2^40`, `dst = 3`, where
`dst - org` wraps to `2^64 - 4` and `signed64` gives `-4`. -/
theorem C4_instantaneous_server_delay_witness :
    delay_delta 7 (2 ^ 40) (2 ^ 40) 3 = (-4 : ℚ) / 2 ^ 32 := by
  have h := (C4_instantaneous_server_delay 7 (2 ^ 40) (2 ^ 40) 3 rfl).2.1
  have v : to_int64 (u64_sub 3 7) = -4 := by decide
  rw [v] at h
  have r := h (by norm_num)
  rw [r]; norm_num

/-- C5: if all four timestamps are the same value `t`, the printed offset and the printed
delay are both exactly `0`. -/
theorem C5_identical_timestamps (t : Nat) :
    offset_theta t t t t = 0 ∧ delay_delta t t t t = 0 := by
  have e : u64_sub (u64_sub t t) (u64_sub t t) = 0 := by
    unfold u64_sub
    omega
  have z : int_to_double (to_int64 0) = 0 := by decide
  rw [offset_theta, delay_delta, e, z]
  norm_num

/-! ## Timestamp codec -/

theorem lor_eq_add (a b i : Nat) (h : b < 2 ^ i) : (2 ^ i * a) ||| b = 2 ^ i * a + b :=
  (Nat.mul_add_lt_is_or h a).symm

theorem ntp_gettimeofday_eq (tv_sec tv_usec : Int) (h0 : 0 ≤ tv_usec) (h1 : tv_usec < 1000000) :
    ntp_gettimeofday tv_sec tv_usec
      = 2 ^ 32 * ((tv_sec + NTP_EPOCH) % 2 ^ 32).toNat + (tv_usec * 2 ^ 32 / 1000000).toNat := by
  unfold ntp_gettimeofday NTP_EPOCH
  simp only [Nat.shiftLeft_eq]
  have a : (((tv_sec % 2 ^ 64).toNat + 2208988800) % 2 ^ 64 * 2 ^ 32) % 2 ^ 64
      = 2 ^ 32 * ((tv_sec + (2208988800 : Nat)) % 2 ^ 32).toNat := by
    omega
  have hu : tv_usec % 2 ^ 64 = tv_usec := Int.emod_eq_of_lt h0 (by omega)
  have b : ((tv_usec % 2 ^ 64).toNat * 2 ^ 32) % 2 ^ 64 / 1000000
      = (tv_usec * 2 ^ 32 / 1000000).toNat := by
    rw [hu]
    have m : (tv_usec.toNat * 2 ^ 32) % 2 ^ 64 = tv_usec.toNat * 2 ^ 32 :=
      Nat.mod_eq_of_lt (by omega)
    rw [m]
    omega
  have c : (tv_usec * 2 ^ 32 / 1000000).toNat < 2 ^ 32 := by
    omega
  rw [a, b, lor_eq_add _ _ _ c]

theorem floor_fraction (u : Int) : ⌊(u : ℚ) / 10 ^ 6 * 2 ^ 32⌋ = u * 2 ^ 32 / 1000000 := by
  have e : (u : ℚ) / 10 ^ 6 * 2 ^ 32 = ((u * 2 ^ 32 : Int) : ℚ) / ((1000000 : Nat) : ℚ) := by
    push_cast
    ring
  rw [e, Rat.floor_intCast_div_natCast]
  norm_num

/-- C6, as stated, fails: for the clock reading `sec = 0`, `usec = 1` the fraction
`10^-6 * 2^32 = 4294.967...` rounds to 4295, but `ntp_gettimeofday` stores 4294: the
integer division by 1000000 truncates. -/
theorem C6_counterexample :
    (0 : Int) ≤ 1 ∧ (1 : Int) < 1000000 ∧ (0 : Int) + NTP_EPOCH < 2 ^ 32 ∧
    ntp_gettimeofday 0 1 = 2208988800 * 2 ^ 32 + 4294 ∧
    encode64_rounded 0 1 = 2208988800 * 2 ^ 32 + 4295 ∧
    ntp_gettimeofday 0 1 ≠ encode64_rounded 0 1 := by
  have r : round (((1 : Int) : ℚ) / 10 ^ 6 * 2 ^ 32) = 4295 := by
    rw [round_eq, Int.floor_eq_iff]
    norm_num
  have a : ntp_gettimeofday 0 1 = 2208988800 * 2 ^ 32 + 4294 := by decide
  have b : encode64_rounded 0 1 = 2208988800 * 2 ^ 32 + 4295 := by
    rw [encode64_rounded, r]
    decide
  refine ⟨by norm_num, by norm_num, by decide, a, b, ?_⟩
  rw [a, b]
  norm_num

/-- C6 (amended): for every clock reading `(sec, usec)` with `0 ≤ usec < 1000000` and
`sec + 2208988800` in `[0, 2^32)`, the timestamp packed by `ntp_gettimeofday` equals
`((sec + 2208988800) << 32) | floor(usec / 10^6 * 2^32)`: the fraction is rounded down. -/
theorem C6_pack_truncates (sec usec : Int) (h0 : 0 ≤ usec) (h1 : usec < 1000000)
    (hs0 : 0 ≤ sec + NTP_EPOCH) (hs : sec + NTP_EPOCH < 2 ^ 32) :
    ntp_gettimeofday sec usec
      = ((sec + NTP_EPOCH).toNat <<< 32) ||| ⌊(usec : ℚ) / 10 ^ 6 * 2 ^ 32⌋.toNat := by
  have c : (usec * 2 ^ 32 / 1000000).toNat < 2 ^ 32 := by
    omega
  rw [ntp_gettimeofday_eq sec usec h0 h1, floor_fraction, Int.emod_eq_of_lt hs0 hs,
    Nat.shiftLeft_eq, Nat.mul_comm _ (2 ^ 32), lor_eq_add _ _ _ c]

/-- Witness for C6 (amended): the reading `sec = 1700000000`, `usec = 999999`. -/
theorem C6_pack_truncates_witness :
    ntp_gettimeofday 1700000000 999999
      = (((1700000000 : Int) + NTP_EPOCH).toNat <<< 32)
          ||| ⌊((999999 : Int) : ℚ) / 10 ^ 6 * 2 ^ 32⌋.toNat :=
  C6_pack_truncates 1700000000 999999 (by norm_num) (by norm_num) (by decide) (by decide)

/-- C7: for every clock reading `(sec, usec)` with `0 ≤ usec < 1000000`, the high 32 bits
of the packed timestamp are `(sec + 2208988800) mod 2^32` (the epoch is added before
packing and seconds beyond 32 bits wrap), the low 32 bits are the fraction
`usec * 2^32 / 1000000`, which is below `2^32`, so nothing is carried into the seconds
field. -/
theorem C7_seconds_field (sec usec : Int) (h0 : 0 ≤ usec) (h1 : usec < 1000000) :
    ntp_gettimeofday sec usec >>> 32 = ((sec + NTP_EPOCH) % 2 ^ 32).toNat ∧
    ntp_gettimeofday sec usec % 2 ^ 32 = (usec * 2 ^ 32 / 1000000).toNat ∧
    (usec * 2 ^ 32 / 1000000).toNat < 2 ^ 32 ∧
    ntp_gettimeofday sec usec < 2 ^ 64 := by
  have c : (usec * 2 ^ 32 / 1000000).toNat < 2 ^ 32 := by
    omega
  have d : ((sec + NTP_EPOCH) % 2 ^ 32).toNat < 2 ^ 32 := by
    omega
  rw [ntp_gettimeofday_eq sec usec h0 h1, Nat.shiftRight_eq_div_pow]
  refine ⟨?_, ?_, c, ?_⟩ <;> omega

/-- Witness for C7: a reading in 2036, five seconds after the 32-bit seconds field wraps
(`2085978501 + 2208988800 = 2^32 + 5`). -/
theorem C7_seconds_field_witness :
    ntp_gettimeofday 2085978501 999999 >>> 32 = 5 := by
  have h := (C7_seconds_field 2085978501 999999 (by norm_num) (by norm_num)).1
  rw [h]
  decide

theorem round_trip_exact (sec usec : Int) (h0 : 0 ≤ usec) (h1 : usec < 1000000)
    (hs0 : 0 ≤ sec + NTP_EPOCH) (hs : sec + NTP_EPOCH < 2 ^ 32) :
    |((ntp_gettimeofday sec usec : Nat) : ℚ) / 2 ^ 32 - (NTP_EPOCH : ℚ)
        - ((sec : ℚ) + (usec : ℚ) / 10 ^ 6)|
      ≤ 1 / 2 ^ 32 := by
  have q0 : 0 ≤ usec * 2 ^ 32 / 1000000 := by omega
  have q1 : (usec * 2 ^ 32 / 1000000) * 1000000 ≤ usec * 2 ^ 32 := by omega
  have q2 : usec * 2 ^ 32 < (usec * 2 ^ 32 / 1000000 + 1) * 1000000 := by omega
  have c1 : (((usec * 2 ^ 32 / 1000000 : Int) : ℚ)) * 1000000 ≤ (usec : ℚ) * 2 ^ 32 := by
    exact_mod_cast q1
  have c2 : (usec : ℚ) * 2 ^ 32 < (((usec * 2 ^ 32 / 1000000 : Int) : ℚ) + 1) * 1000000 := by
    exact_mod_cast q2
  have v : ((ntp_gettimeofday sec usec : Nat) : ℚ)
      = 2 ^ 32 * ((sec : ℚ) + (NTP_EPOCH : ℚ)) + ((usec * 2 ^ 32 / 1000000 : Int) : ℚ) := by
    rw [ntp_gettimeofday_eq sec usec h0 h1, Int.emod_eq_of_lt hs0 hs]
    have a : (((sec + NTP_EPOCH).toNat : Nat) : ℚ) = (sec : ℚ) + (NTP_EPOCH : ℚ) := by
      rw [← Int.cast_natCast, Int.toNat_of_nonneg hs0]
      push_cast
      rfl
    have b : (((usec * 2 ^ 32 / 1000000).toNat : Nat) : ℚ)
        = ((usec * 2 ^ 32 / 1000000 : Int) : ℚ) := by
      rw [← Int.cast_natCast, Int.toNat_of_nonneg q0]
    rw [Nat.cast_add, Nat.cast_mul, a, b]
    norm_num
  have d1 : ((usec * 2 ^ 32 / 1000000 : Int) : ℚ) / 2 ^ 32 ≤ (usec : ℚ) / 10 ^ 6 := by
    rw [div_le_div_iff₀ (by norm_num) (by norm_num)]
    linarith
  have d2 : (usec : ℚ) / 10 ^ 6 < ((usec * 2 ^ 32 / 1000000 : Int) : ℚ) / 2 ^ 32 + 1 / 2 ^ 32 := by
    rw [← add_div, div_lt_div_iff₀ (by norm_num) (by norm_num)]
    linarith
  have e : (2 ^ 32 * ((sec : ℚ) + (NTP_EPOCH : ℚ)) + ((usec * 2 ^ 32 / 1000000 : Int) : ℚ)) / 2 ^ 32
      = (sec : ℚ) + (NTP_EPOCH : ℚ) + ((usec * 2 ^ 32 / 1000000 : Int) : ℚ) / 2 ^ 32 := by
    rw [add_div, mul_div_cancel_left₀ _ (by norm_num)]
  rw [v, e, abs_le]
  constructor <;> linarith

theorem round53_error (n : Nat) (h : n < 2 ^ 64) :
    round53 n ≤ n + 2 ^ 10 ∧ n ≤ round53 n + 2 ^ 10 := by
  have hb : bit_length n - 53 ≤ 11 := by
    have := bit_length_aux_le n n 64 h
    unfold bit_length
    omega
  have hp : 2 ^ (bit_length n - 53) ≤ 2 ^ 11 := Nat.pow_le_pow_right (by norm_num) hb
  have hpos : 0 < 2 ^ (bit_length n - 53) := Nat.pow_pos (by norm_num)
  have hd := Nat.div_add_mod n (2 ^ (bit_length n - 53))
  have hr := Nat.mod_lt n hpos
  unfold round53
  simp only [Nat.shiftRight_eq_div_pow, Nat.shiftLeft_eq]
  generalize 2 ^ (bit_length n - 53) = P at *
  generalize n % P = r at *
  generalize hq : n / P = q at *
  have hx : (q + 1) * P = P * q + P := by ring
  split
  · rename_i hc
    rw [Nat.mul_comm q P]
    omega
  · rename_i hc
    rw [hx]
    omega

theorem int_to_double_error (z : Int) (h : |z| < 2 ^ 64) : |int_to_double z - z| ≤ 2 ^ 10 := by
  have h1 := abs_lt.mp h
  unfold int_to_double
  split
  · have e := round53_error z.toNat (by omega)
    rw [abs_le]
    omega
  · have e := round53_error (-z).toNat (by omega)
    rw [abs_le]
    omega

theorem ntp_to_unix_error (ts : Nat) (h : ts < 2 ^ 64) :
    |ntp_to_unix ts - ((ts : ℚ) / 2 ^ 32 - (NTP_EPOCH : ℚ))| ≤ 1 / 2 ^ 21 := by
  have e1 := int_to_double_error (ts : Int) (by rw [abs_lt]; omega)
  have b1 := abs_le.mp e1
  have e2 := int_to_double_error (int_to_double (ts : Int) - (NTP_EPOCH : Int) * 2 ^ 32)
    (by unfold NTP_EPOCH; rw [abs_lt]; omega)
  have b2 := abs_le.mp e2
  have t : |int_to_double (int_to_double (ts : Int) - (NTP_EPOCH : Int) * 2 ^ 32)
      - ((ts : Int) - (NTP_EPOCH : Int) * 2 ^ 32)| ≤ 2 ^ 11 := by
    rw [abs_le]
    omega
  have tq : |((int_to_double (int_to_double (ts : Int) - (NTP_EPOCH : Int) * 2 ^ 32) : Int) : ℚ)
      - (((ts : Int) : ℚ) - ((NTP_EPOCH : Int) : ℚ) * 2 ^ 32)| ≤ 2 ^ 11 := by
    exact_mod_cast t
  have tb := abs_le.mp tq
  simp only [Int.cast_natCast] at tb
  unfold ntp_to_unix
  rw [abs_le]
  constructor
  · rw [le_sub_iff_add_le, le_div_iff₀ (by norm_num)]
    have : (-(1 / 2 ^ 21) + ((ts : ℚ) / 2 ^ 32 - (NTP_EPOCH : ℚ))) * 2 ^ 32
        = -(2 ^ 11) + ((ts : ℚ) - (NTP_EPOCH : ℚ) * 2 ^ 32) := by
      field_simp
      ring
    rw [this]
    linarith [tb.1]
  · rw [sub_le_iff_le_add, div_le_iff₀ (by norm_num)]
    have : (1 / 2 ^ 21 + ((ts : ℚ) / 2 ^ 32 - (NTP_EPOCH : ℚ))) * 2 ^ 32
        = 2 ^ 11 + ((ts : ℚ) - (NTP_EPOCH : ℚ) * 2 ^ 32) := by
      field_simp
      ring
    rw [this]
    linarith [tb.2]

theorem bit_length_aux_ge (k : Nat) :
    ∀ fuel n : Nat, 2 ^ k ≤ n → n ≤ fuel → k + 1 ≤ bit_length_aux fuel n := by
  induction k with
  | zero =>
    intro fuel n h hf
    cases fuel with
    | zero => simp at h; omega
    | succ f =>
      unfold bit_length_aux
      have hn : n ≠ 0 := by simp at h; omega
      rw [if_neg hn]
      omega
  | succ k ih =>
    intro fuel n h hf
    have h2 : 2 ^ k ≤ n / 2 := by
      rw [pow_succ] at h
      omega
    have hk : 1 ≤ 2 ^ k := Nat.one_le_two_pow
    cases fuel with
    | zero => omega
    | succ f =>
      unfold bit_length_aux
      have hn : n ≠ 0 := by omega
      rw [if_neg hn]
      have := ih f (n / 2) h2 (by omega)
      omega

theorem round53_top (n : Nat) (lo : 2 ^ 63 ≤ n) (hi : n < 2 ^ 64) :
    ∃ m, round53 n = 2048 * m ∧ 2048 * m ≤ n + 1024 ∧ n ≤ 2048 * m + 1024 := by
  have hb : bit_length n - 53 = 11 := by
    have h1 := bit_length_aux_le n n 64 hi
    have h2 := bit_length_aux_ge 63 n n lo (Nat.le_refl n)
    unfold bit_length
    omega
  unfold round53
  simp only [hb, Nat.shiftRight_eq_div_pow, Nat.shiftLeft_eq]
  split
  · exact ⟨n / 2 ^ 11, by omega, by omega, by omega⟩
  · exact ⟨n / 2 ^ 11 + 1, by omega, by omega, by omega⟩

theorem round53_of_multiple (z : Nat) (hz : z < 2 ^ 63) (hd : z % 2048 = 0) : round53 z = z := by
  have hb : bit_length z - 53 ≤ 10 := by
    have := bit_length_aux_le z z 63 hz
    unfold bit_length
    omega
  have hdvd : 2 ^ (bit_length z - 53) ∣ z := by
    have h1 : 2 ^ (bit_length z - 53) ∣ 2 ^ 11 := Nat.pow_dvd_pow 2 (by omega)
    exact Nat.dvd_trans h1 (Nat.dvd_of_mod_eq_zero hd)
  have hpos : 0 < 2 ^ (bit_length z - 53) := Nat.pow_pos (by norm_num)
  have hm : z % 2 ^ (bit_length z - 53) = 0 := Nat.mod_eq_zero_of_dvd hdvd
  unfold round53
  simp only [Nat.shiftRight_eq_div_pow, Nat.shiftLeft_eq, hm]
  rw [if_pos (Or.inl (by omega))]
  exact Nat.div_mul_cancel hdvd

theorem ntp_to_unix_error_unix_era (ts : Nat) (lo : NTP_EPOCH * 2 ^ 32 ≤ ts) (hi : ts < 2 ^ 64) :
    |ntp_to_unix ts - ((ts : ℚ) / 2 ^ 32 - (NTP_EPOCH : ℚ))| ≤ 1 / 2 ^ 22 := by
  unfold NTP_EPOCH at lo
  obtain ⟨m, hm, m1, m2⟩ := round53_top ts (by omega) hi
  have y : int_to_double (ts : Int) = 2048 * (m : Int) := by
    unfold int_to_double
    rw [if_pos (by omega), Int.toNat_ofNat, hm]
    push_cast
    rfl
  have z : int_to_double (2048 * (m : Int) - (NTP_EPOCH : Int) * 2 ^ 32)
      = 2048 * (m : Int) - (NTP_EPOCH : Int) * 2 ^ 32 := by
    unfold NTP_EPOCH int_to_double
    rw [if_pos (by omega), round53_of_multiple _ (by omega) (by omega)]
    omega
  have t : |(2048 * (m : Int) - (NTP_EPOCH : Int) * 2 ^ 32)
      - ((ts : Int) - (NTP_EPOCH : Int) * 2 ^ 32)| ≤ 2 ^ 10 := by
    rw [abs_le]
    omega
  have tq : |(((2048 * (m : Int) - (NTP_EPOCH : Int) * 2 ^ 32 : Int)) : ℚ)
      - (((ts : Int) : ℚ) - ((NTP_EPOCH : Int) : ℚ) * 2 ^ 32)| ≤ 2 ^ 10 := by
    exact_mod_cast t
  have tb := abs_le.mp tq
  simp only [Int.cast_natCast] at tb
  unfold ntp_to_unix
  rw [y, z, abs_le]
  constructor
  · rw [le_sub_iff_add_le, le_div_iff₀ (by norm_num)]
    have : (-(1 / 2 ^ 22) + ((ts : ℚ) / 2 ^ 32 - (NTP_EPOCH : ℚ))) * 2 ^ 32
        = -(2 ^ 10) + ((ts : ℚ) - (NTP_EPOCH : ℚ) * 2 ^ 32) := by
      field_simp
      ring
    rw [this]
    linarith [tb.1]
  · rw [sub_le_iff_le_add, div_le_iff₀ (by norm_num)]
    have : (1 / 2 ^ 22 + ((ts : ℚ) / 2 ^ 32 - (NTP_EPOCH : ℚ))) * 2 ^ 32
        = 2 ^ 10 + ((ts : ℚ) - (NTP_EPOCH : ℚ) * 2 ^ 32) := by
      field_simp
      ring
    rw [this]
    linarith [tb.2]

/-- C8, as stated, fails. For the reading `sec = 1700000000`, `usec = 123456`, which
satisfies the hypotheses, the value returned by `ntp_to_unix` at the packed timestamp is
more than `2^-32` away from `sec + usec / 10^6` (about 5.5 units of `2^-32` s): the
conversion of the `uint64_t` to `double` keeps 53 bits.  For the reading
`sec = -2208988801`, `usec = 0`, which also satisfies `sec + 2208988800 < 2^32`, the seconds
wrap and both the returned value and the exact value `ts * 2^-32 - 2208988800` are `2^32`
seconds away from `sec`. -/
theorem C8_counterexample :
    ((0 : Int) ≤ 123456 ∧ (123456 : Int) < 1000000 ∧ (1700000000 : Int) + NTP_EPOCH < 2 ^ 32 ∧
      1 / 2 ^ 32 < |ntp_to_unix (ntp_gettimeofday 1700000000 123456)
        - (((1700000000 : Int) : ℚ) + ((123456 : Int) : ℚ) / 10 ^ 6)|) ∧
    ((0 : Int) ≤ 0 ∧ (0 : Int) < 1000000 ∧ (-2208988801 : Int) + NTP_EPOCH < 2 ^ 32 ∧
      ntp_to_unix (ntp_gettimeofday (-2208988801) 0)
        - (((-2208988801 : Int) : ℚ) + ((0 : Int) : ℚ) / 10 ^ 6) = 2 ^ 32 ∧
      ((ntp_gettimeofday (-2208988801) 0 : Nat) : ℚ) / 2 ^ 32 - (NTP_EPOCH : ℚ)
        - (((-2208988801 : Int) : ℚ) + ((0 : Int) : ℚ) / 10 ^ 6) = 2 ^ 32) := by
  have a : int_to_double (int_to_double (ntp_gettimeofday 1700000000 123456 : Nat)
      - (NTP_EPOCH : Int) * 2 ^ 32) = 7301444403730239488 := by decide
  have b : int_to_double (int_to_double (ntp_gettimeofday (-2208988801) 0 : Nat)
      - (NTP_EPOCH : Int) * 2 ^ 32) = 8959209416184299520 := by decide
  have c : ntp_gettimeofday (-2208988801) 0 = 18446744069414584320 := by decide
  refine ⟨⟨by norm_num, by norm_num, by decide, ?_⟩, ⟨by norm_num, by norm_num, by decide, ?_, ?_⟩⟩
  · rw [ntp_to_unix, a]
    have e : ((7301444403730239488 : Int) : ℚ) / 2 ^ 32
        - (((1700000000 : Int) : ℚ) + ((123456 : Int) : ℚ) / 10 ^ 6)
        = 86016 / 15625 / 2 ^ 32 := by norm_num
    rw [e, abs_of_pos (by norm_num)]
    norm_num
  · rw [ntp_to_unix, b]
    norm_num
  · rw [c]
    unfold NTP_EPOCH
    norm_num

/-- C8 (amended): for every clock reading `t = (sec, usec)` with `0 ≤ usec < 1000000` and
`sec + 2208988800` in `[0, 2^32)`, and `ts` the timestamp packed from `t`: the exact real
value `ts * 2^-32 - 2208988800` differs from `sec + usec / 10^6` by at most `2^-32` seconds;
the value that `ntp_to_unix` returns in `double` arithmetic differs from it by at most
`2^-21 + 2^-32` seconds, and by at most `2^-22 + 2^-32` seconds when `sec ≥ 0`. -/
theorem C8_round_trip_double (sec usec : Int) (h0 : 0 ≤ usec) (h1 : usec < 1000000)
    (hs0 : 0 ≤ sec + NTP_EPOCH) (hs : sec + NTP_EPOCH < 2 ^ 32) :
    |((ntp_gettimeofday sec usec : Nat) : ℚ) / 2 ^ 32 - (NTP_EPOCH : ℚ)
        - ((sec : ℚ) + (usec : ℚ) / 10 ^ 6)| ≤ 1 / 2 ^ 32 ∧
    |ntp_to_unix (ntp_gettimeofday sec usec) - ((sec : ℚ) + (usec : ℚ) / 10 ^ 6)|
      ≤ 1 / 2 ^ 21 + 1 / 2 ^ 32 ∧
    (0 ≤ sec →
      |ntp_to_unix (ntp_gettimeofday sec usec) - ((sec : ℚ) + (usec : ℚ) / 10 ^ 6)|
        ≤ 1 / 2 ^ 22 + 1 / 2 ^ 32) := by
  have ex := round_trip_exact sec usec h0 h1 hs0 hs
  have hlt : ntp_gettimeofday sec usec < 2 ^ 64 := by
    rw [ntp_gettimeofday_eq sec usec h0 h1]
    omega
  have tri : ∀ x y z : ℚ, |x - z| ≤ |x - y| + |y - z| := by
    intro x y z
    have := abs_add (x - y) (y - z)
    rwa [sub_add_sub_cancel] at this
  refine ⟨ex, ?_, ?_⟩
  · have e := ntp_to_unix_error (ntp_gettimeofday sec usec) hlt
    exact le_trans (tri _ _ _) (add_le_add e ex)
  · intro hsec
    have lo : NTP_EPOCH * 2 ^ 32 ≤ ntp_gettimeofday sec usec := by
      rw [ntp_gettimeofday_eq sec usec h0 h1, Int.emod_eq_of_lt hs0 hs]
      unfold NTP_EPOCH at *
      omega
    have e := ntp_to_unix_error_unix_era (ntp_gettimeofday sec usec) lo hlt
    exact le_trans (tri _ _ _) (add_le_add e ex)

/-- Witness for C8 (amended): the reading `sec = 1700000000`, `usec = 123456`. -/
theorem C8_round_trip_double_witness :
    |ntp_to_unix (ntp_gettimeofday 1700000000 123456)
        - (((1700000000 : Int) : ℚ) + ((123456 : Int) : ℚ) / 10 ^ 6)|
      ≤ 1 / 2 ^ 22 + 1 / 2 ^ 32 :=
  (C8_round_trip_double 1700000000 123456 (by norm_num) (by norm_num) (by decide)
    (by decide)).2.2 (by norm_num)

/-! ## Response parser -/

theorem get_be32_eq (buf : List Nat) (off : Nat)
    (h : ∀ k, k < 4 → buf.getD (off + k) 0 < 256) :
    get_be32 buf off
      = buf.getD (off + 0) 0 * 2 ^ 24 + buf.getD (off + 1) 0 * 2 ^ 16
          + buf.getD (off + 2) 0 * 2 ^ 8 + buf.getD (off + 3) 0 := by
  have h0 := h 0 (by norm_num)
  have h1 := h 1 (by norm_num)
  have h2 := h 2 (by norm_num)
  have h3 := h 3 (by norm_num)
  unfold get_be32
  simp only [Nat.shiftLeft_eq]
  generalize buf.getD (off + 0) 0 = b0 at *
  generalize buf.getD (off + 1) 0 = b1 at *
  generalize buf.getD (off + 2) 0 = b2 at *
  generalize buf.getD (off + 3) 0 = b3 at *
  have e1 : b0 * 2 ^ 24 ||| b1 * 2 ^ 16 = 2 ^ 16 * (b0 * 2 ^ 8 + b1) := by
    have := lor_eq_add b0 (b1 * 2 ^ 16) 24 (by omega)
    rw [Nat.mul_comm b0 (2 ^ 24), this]
    omega
  have e2 : 2 ^ 16 * (b0 * 2 ^ 8 + b1) ||| b2 * 2 ^ 8 = 2 ^ 8 * (b0 * 2 ^ 16 + b1 * 2 ^ 8 + b2) := by
    rw [lor_eq_add (b0 * 2 ^ 8 + b1) (b2 * 2 ^ 8) 16 (by omega)]
    omega
  rw [e1, e2, lor_eq_add _ b3 8 (by omega)]
  omega

/-- C9: for every 4-byte field `b0 b1 b2 b3`, `get_short_ts_ms` returns
`v * 1000 / 65536` with `v = b0*2^24 + b1*2^16 + b2*2^8 + b3` the unsigned big-endian value
(also when `b0 ≥ 128`), so the result is never negative; the field `0x00010000` gives 1000
and `0x00008000` gives 500. -/
theorem C9_short_timestamp_ms (buf : List Nat) (off : Nat)
    (h : ∀ k, k < 4 → buf.getD (off + k) 0 < 256) :
    get_short_ts_ms buf off
      = ((buf.getD (off + 0) 0 * 2 ^ 24 + buf.getD (off + 1) 0 * 2 ^ 16
            + buf.getD (off + 2) 0 * 2 ^ 8 + buf.getD (off + 3) 0 : Nat) : ℚ) * 1000 / 65536 ∧
    0 ≤ get_short_ts_ms buf off ∧
    get_short_ts_ms [0x00, 0x01, 0x00, 0x00] 0 = 1000 ∧
    get_short_ts_ms [0x00, 0x00, 0x80, 0x00] 0 = 500 := by
  have h0 := h 0 (by norm_num)
  have h1 := h 1 (by norm_num)
  have h2 := h 2 (by norm_num)
  have h3 := h 3 (by norm_num)
  have e := get_be32_eq buf off h
  generalize buf.getD (off + 0) 0 * 2 ^ 24 + buf.getD (off + 1) 0 * 2 ^ 16
    + buf.getD (off + 2) 0 * 2 ^ 8 + buf.getD (off + 3) 0 = v at *
  have hv : v < 2 ^ 32 := by
    have := Nat.mod_lt ((buf.getD (off + 0) 0 <<< 24 ||| buf.getD (off + 1) 0 <<< 16
      ||| buf.getD (off + 2) 0 <<< 8 ||| buf.getD (off + 3) 0)) (show 0 < 2 ^ 32 by norm_num)
    rw [← e]
    exact this
  have c1 : int_to_double (v : Int) = v := int_to_double_of_abs_le _ (by rw [abs_le]; omega)
  have c2 : int_to_double ((v : Int) * 1000) = (v : Int) * 1000 :=
    int_to_double_of_abs_le _ (by rw [abs_le]; omega)
  have val : get_short_ts_ms buf off = (v : ℚ) * 1000 / 65536 := by
    rw [get_short_ts_ms, e, c1, c2, Int.cast_mul, Int.cast_natCast]
    norm_num
  refine ⟨val, ?_, ?_, ?_⟩
  · rw [val]
    exact div_nonneg (mul_nonneg (Nat.cast_nonneg v) (by norm_num)) (by norm_num)
  · have t : int_to_double (int_to_double (get_be32 [0x00, 0x01, 0x00, 0x00] 0) * 1000)
        = 65536000 := by decide
    rw [get_short_ts_ms, t]; norm_num
  · have t : int_to_double (int_to_double (get_be32 [0x00, 0x00, 0x80, 0x00] 0) * 1000)
        = 32768000 := by decide
    rw [get_short_ts_ms, t]; norm_num

/-- Witness for C9: the field `0xFFFFFFFF` at offset 4 of a buffer, where `b0 ≥ 128`. -/
theorem C9_short_timestamp_ms_witness :
    get_short_ts_ms [0, 0, 0, 0, 255, 255, 255, 255] 4 = 4294967295 * 1000 / 65536 := by
  have h := (C9_short_timestamp_ms [0, 0, 0, 0, 255, 255, 255, 255] 4
    (by intro k hk; interval_cases k <;> decide)).1
  rw [h]
  norm_num

theorem cstr_four (a b c d : Nat) (ha : a ≠ 0) (hb : b ≠ 0) (hc : c ≠ 0) (hd : d ≠ 0) :
    cstr [a, b, c, d, 0] = [a, b, c, d] := by
  simp [cstr, List.takeWhile, ha, hb, hc, hd]

theorem cstr_four_nul (a b c d : Nat) :
    cstr [a, b, c, d, 0] = List.takeWhile (fun x => decide (x ≠ 0)) [a, b, c, d] := by
  by_cases ha : a = 0 <;> by_cases hb : b = 0 <;> by_cases hc : c = 0 <;> by_cases hd : d = 0 <;>
    simp [cstr, List.takeWhile, ha, hb, hc, hd]

/-- C10, as stated, fails: for a stratum-1 reply over IPv4 whose reference id is `PPS`
padded with a NUL byte, the printed refid is `clock:PPS`, not `clock:` followed by the four
payload bytes. -/
theorem C10_counterexample :
    ([0x24, 1] ++ List.replicate 10 0 ++ [80, 80, 83, 0] ++ List.replicate 32 0).getD 1 0 = 1 ∧
    sntp_query_refid true
        ([0x24, 1] ++ List.replicate 10 0 ++ [80, 80, 83, 0] ++ List.replicate 32 0)
      = ascii "clock:PPS" ∧
    sntp_query_refid true
        ([0x24, 1] ++ List.replicate 10 0 ++ [80, 80, 83, 0] ++ List.replicate 32 0)
      ≠ ascii "clock:" ++ [80, 80, 83, 0] := by
  decide

/-- C10 (amended): whatever the address family, for a response with stratum 0 the printed
refid is `kod:` followed by the payload bytes that come before the first NUL byte, and with
stratum 1 it is `clock:` followed by them; these are all four payload characters when none
of the four bytes is NUL.  Stratum 0 with payload `RATE` gives `kod:RATE` and stratum 1
with payload `LOCL` gives `clock:LOCL`. -/
theorem C10_refid_ascii_tag (family_is_AF_INET : Bool) (packet : List Nat) :
    (packet.getD 1 0 = 0 →
      sntp_query_refid family_is_AF_INET packet
        = ascii "kod:" ++ List.takeWhile (fun b => decide (b ≠ 0))
            [packet.getD 12 0, packet.getD 13 0, packet.getD 14 0, packet.getD 15 0]) ∧
    (packet.getD 1 0 = 1 →
      sntp_query_refid family_is_AF_INET packet
        = ascii "clock:" ++ List.takeWhile (fun b => decide (b ≠ 0))
            [packet.getD 12 0, packet.getD 13 0, packet.getD 14 0, packet.getD 15 0]) ∧
    ((∀ k, k < 4 → packet.getD (12 + k) 0 ≠ 0) →
      (packet.getD 1 0 = 0 →
        sntp_query_refid family_is_AF_INET packet
          = ascii "kod:" ++
            [packet.getD 12 0, packet.getD 13 0, packet.getD 14 0, packet.getD 15 0]) ∧
      (packet.getD 1 0 = 1 →
        sntp_query_refid family_is_AF_INET packet
          = ascii "clock:" ++
            [packet.getD 12 0, packet.getD 13 0, packet.getD 14 0, packet.getD 15 0])) ∧
    sntp_query_refid family_is_AF_INET
        ([0x24, 0] ++ List.replicate 10 0 ++ ascii "RATE" ++ List.replicate 32 0)
      = ascii "kod:RATE" ∧
    sntp_query_refid family_is_AF_INET
        ([0x24, 1] ++ List.replicate 10 0 ++ ascii "LOCL" ++ List.replicate 32 0)
      = ascii "clock:LOCL" := by
  have pk : cstr (ascii "kod") ++ ascii ":" = ascii "kod:" := by decide
  have pc : cstr (ascii "clock") ++ ascii ":" = ascii "clock:" := by decide
  refine ⟨?_, ?_, ?_, ?_, ?_⟩
  · intro hs
    simp only [sntp_query_refid, hs, true_or, if_true]
    rw [cstr_four_nul, pk]
  · intro hs
    simp only [sntp_query_refid, hs, or_true, if_true, one_ne_zero, if_false]
    rw [cstr_four_nul, pc]
  · intro h
    have h0 := h 0 (by norm_num)
    have h1 := h 1 (by norm_num)
    have h2 := h 2 (by norm_num)
    have h3 := h 3 (by norm_num)
    constructor
    · intro hs
      simp only [sntp_query_refid, hs, true_or, if_true]
      rw [cstr_four _ _ _ _ h0 h1 h2 h3, pk]
    · intro hs
      simp only [sntp_query_refid, hs, or_true, if_true, one_ne_zero, if_false]
      rw [cstr_four _ _ _ _ h0 h1 h2 h3, pc]
  · cases family_is_AF_INET <;> decide
  · cases family_is_AF_INET <;> decide

/-- Witness for C10 (amended): a 48-byte stratum-1 reply over IPv6 whose reference id is
`GPS1`. -/
theorem C10_refid_ascii_tag_witness :
    sntp_query_refid false ([0x24, 1] ++ List.replicate 10 0 ++ ascii "GPS1" ++ List.replicate 32 0)
      = ascii "clock:" ++ ascii "GPS1" :=
  ((C10_refid_ascii_tag false
    ([0x24, 1] ++ List.replicate 10 0 ++ ascii "GPS1" ++ List.replicate 32 0)).2.2.1
    (by intro k hk; interval_cases k <;> decide)).2 (by decide)

/-- C11, as stated, fails: for a stratum-1 reply whose reference id is `GPS` padded with a
NUL byte, the printed refid is `clock:GPS`: three bytes follow the prefix, not the four
payload bytes. -/
theorem C11_counterexample :
    ([0x24, 1] ++ List.replicate 10 0 ++ [71, 80, 83, 0] ++ List.replicate 32 0).getD 1 0 = 1 ∧
    sntp_query_refid false
        ([0x24, 1] ++ List.replicate 10 0 ++ [71, 80, 83, 0] ++ List.replicate 32 0)
      = ascii "clock:GPS" ∧
    sntp_query_refid false
        ([0x24, 1] ++ List.replicate 10 0 ++ [71, 80, 83, 0] ++ List.replicate 32 0)
      ≠ ascii "clock:" ++ [71, 80, 83, 0] ∧
    (sntp_query_refid false
        ([0x24, 1] ++ List.replicate 10 0 ++ [71, 80, 83, 0] ++ List.replicate 32 0)).length
      = (ascii "clock:").length + 3 := by
  decide

/-- C11 (amended): for every 4-byte reference-id payload at stratum 0 or 1, whatever the
byte values, the printed refid is the prefix (`kod:` or `clock:`) followed by the payload
bytes that come before the first NUL byte, unchanged and unescaped: a prefix of the payload,
of length at most 4. -/
theorem C11_refid_stops_at_nul (family_is_AF_INET : Bool) (packet : List Nat) :
    (packet.getD 1 0 = 0 →
      sntp_query_refid family_is_AF_INET packet
        = ascii "kod:" ++ List.takeWhile (fun b => decide (b ≠ 0))
            [packet.getD 12 0, packet.getD 13 0, packet.getD 14 0, packet.getD 15 0]) ∧
    (packet.getD 1 0 = 1 →
      sntp_query_refid family_is_AF_INET packet
        = ascii "clock:" ++ List.takeWhile (fun b => decide (b ≠ 0))
            [packet.getD 12 0, packet.getD 13 0, packet.getD 14 0, packet.getD 15 0]) ∧
    List.takeWhile (fun b => decide (b ≠ 0))
        [packet.getD 12 0, packet.getD 13 0, packet.getD 14 0, packet.getD 15 0]
      <+: [packet.getD 12 0, packet.getD 13 0, packet.getD 14 0, packet.getD 15 0] ∧
    (List.takeWhile (fun b => decide (b ≠ 0))
        [packet.getD 12 0, packet.getD 13 0, packet.getD 14 0, packet.getD 15 0]).length ≤ 4 := by
  refine ⟨?_, ?_, List.takeWhile_prefix _, ?_⟩
  · intro hs
    have p : cstr (ascii "kod") ++ ascii ":" = ascii "kod:" := by decide
    simp only [sntp_query_refid, hs, true_or, if_true]
    rw [cstr_four_nul, p]
  · intro hs
    have p : cstr (ascii "clock") ++ ascii ":" = ascii "clock:" := by decide
    simp only [sntp_query_refid, hs, or_true, if_true, one_ne_zero, if_false]
    rw [cstr_four_nul, p]
  · exact (List.takeWhile_prefix _).length_le

/-- Witness for C11 (amended): a kiss-of-death reply whose code is `X` followed by three
NUL bytes prints `kod:X`. -/
theorem C11_refid_stops_at_nul_witness :
    sntp_query_refid true ([0x24, 0] ++ List.replicate 10 0 ++ [88, 0, 0, 0] ++ List.replicate 32 0)
      = ascii "kod:X" := by
  have h := (C11_refid_stops_at_nul true
    ([0x24, 0] ++ List.replicate 10 0 ++ [88, 0, 0, 0] ++ List.replicate 32 0)).1 (by decide)
  rw [h]
  decide

theorem digitChar_toNat_ne_zero (d : Nat) : (Nat.digitChar d).toNat ≠ 0 := by
  by_cases h : d < 16
  · interval_cases d <;> decide
  · have e : Nat.digitChar d = '*' := by
      unfold Nat.digitChar
      iterate 16 rw [if_neg (by omega)]
    rw [e]
    decide

theorem toDigitsCore_ne_zero (b : Nat) :
    ∀ (fuel n : Nat) (ds : List Char), (∀ c ∈ ds, c.toNat ≠ 0) →
      ∀ c ∈ Nat.toDigitsCore b fuel n ds, c.toNat ≠ 0 := by
  intro fuel
  induction fuel with
  | zero => intro n ds h; simpa [Nat.toDigitsCore] using h
  | succ f ih =>
    intro n ds h
    have hd : ∀ c ∈ Nat.digitChar (n % b) :: ds, c.toNat ≠ 0 := by
      intro c hc
      rcases List.mem_cons.mp hc with rfl | hc
      · exact digitChar_toNat_ne_zero _
      · exact h c hc
    unfold Nat.toDigitsCore
    simp only
    split
    · exact hd
    · exact ih (n / b) _ hd

theorem decimal_ne_zero (n : Nat) : ∀ x ∈ decimal n, x ≠ 0 := by
  intro x hx
  unfold decimal Nat.toDigits at hx
  obtain ⟨c, hc, rfl⟩ := List.mem_map.mp hx
  exact toDigitsCore_ne_zero 10 _ _ [] (by simp) c hc

theorem cstr_append_nul (l : List Nat) (h : ∀ x ∈ l, x ≠ 0) : cstr (l ++ [0]) = l := by
  induction l with
  | nil => simp [cstr]
  | cons a t ih =>
    have ha : a ≠ 0 := h a (List.mem_cons_self _ _)
    have ht : ∀ x ∈ t, x ≠ 0 := fun x hx => h x (List.mem_cons_of_mem _ hx)
    have := ih ht
    unfold cstr at this ⊢
    rw [List.cons_append, List.takeWhile_cons_of_pos (by simpa using ha), this]

theorem inet_ntop_ne_zero (a : List Nat) : ∀ x ∈ inet_ntop_AF_INET a, x ≠ 0 := by
  intro x hx
  unfold inet_ntop_AF_INET at hx
  simp only [List.mem_append] at hx
  have dot : ∀ y ∈ ascii ".", y ≠ 0 := by decide
  rcases hx with (((((h | h) | h) | h) | h) | h) | h
  · exact decimal_ne_zero _ x h
  · exact dot x h
  · exact decimal_ne_zero _ x h
  · exact dot x h
  · exact decimal_ne_zero _ x h
  · exact dot x h
  · exact decimal_ne_zero _ x h

theorem decimal_eq_repr (n : Nat) : decimal n = ascii (toString n) := rfl

/-- C12: for every stratum value from 2 up and every payload bytes `b0 b1 b2 b3`, when the
address family is `AF_INET` the printed refid is the dotted-decimal text `b0.b1.b2.b3`,
each byte in decimal and in wire order, with no `kod:` or `clock:` prefix and no hex form;
stratum 2 with bytes `192, 0, 2, 1` gives `192.0.2.1`. -/
theorem C12_refid_ipv4 (packet : List Nat) (hs : 2 ≤ packet.getD 1 0) :
    sntp_query_refid true packet
      = ascii (toString (packet.getD 12 0)) ++ ascii "." ++ ascii (toString (packet.getD 13 0))
          ++ ascii "." ++ ascii (toString (packet.getD 14 0)) ++ ascii "."
          ++ ascii (toString (packet.getD 15 0)) ∧
    sntp_query_refid true ([0x24, 2] ++ List.replicate 10 0 ++ [192, 0, 2, 1] ++ List.replicate 32 0)
      = ascii "192.0.2.1" := by
  constructor
  · have n0 : ¬ (packet.getD 1 0 = 0 ∨ packet.getD 1 0 = 1) := by omega
    simp only [sntp_query_refid, n0, if_false, if_true]
    rw [cstr_append_nul _ (inet_ntop_ne_zero _)]
    rfl
  · decide

/-- Witness for C12: a stratum-255 reply whose reference id is `10.255.0.7`. -/
theorem C12_refid_ipv4_witness :
    sntp_query_refid true ([0x24, 255] ++ List.replicate 10 0 ++ [10, 255, 0, 7] ++ List.replicate 32 0)
      = ascii "10.255.0.7" := by
  have h := (C12_refid_ipv4
    ([0x24, 255] ++ List.replicate 10 0 ++ [10, 255, 0, 7] ++ List.replicate 32 0) (by decide)).1
  rw [h]
  decide

theorem toDigitsCore_acc (b : Nat) :
    ∀ (fuel n : Nat) (ds : List Char),
      Nat.toDigitsCore b fuel n ds = Nat.toDigitsCore b fuel n [] ++ ds := by
  intro fuel
  induction fuel with
  | zero => intro n ds; simp [Nat.toDigitsCore]
  | succ f ih =>
    intro n ds
    unfold Nat.toDigitsCore
    simp only
    split
    · simp
    · rw [ih (n / b) (Nat.digitChar (n % b) :: ds), ih (n / b) [Nat.digitChar (n % b)]]
      simp

theorem toDigitsCore_fuel (b : Nat) (hb : 2 ≤ b) :
    ∀ (f1 f2 n : Nat) (ds : List Char), n < f1 → n < f2 →
      Nat.toDigitsCore b f1 n ds = Nat.toDigitsCore b f2 n ds := by
  intro f1
  induction f1 with
  | zero => intro f2 n ds h1; omega
  | succ f ih =>
    intro f2 n ds h1 h2
    cases f2 with
    | zero => omega
    | succ g =>
      unfold Nat.toDigitsCore
      simp only
      split
      · rfl
      · rename_i hq
        have hlt : n / b < n := by
          have hn : 0 < n := by
            rcases Nat.eq_zero_or_pos n with h0 | h0
            · rw [h0] at hq; simp at hq
            · exact h0
          exact Nat.div_lt_self hn (by omega)
        exact ih g (n / b) _ (by omega) (by omega)

theorem toDigits_rec (b : Nat) (hb : 2 ≤ b) (n : Nat) :
    Nat.toDigits b n
      = if n / b = 0 then [Nat.digitChar (n % b)]
        else Nat.toDigits b (n / b) ++ [Nat.digitChar (n % b)] := by
  unfold Nat.toDigits
  rw [Nat.toDigitsCore]
  split
  · rfl
  · rename_i hq
    have hlt : n / b < n := by
      have hn : 0 < n := by
        rcases Nat.eq_zero_or_pos n with h0 | h0
        · rw [h0] at hq; simp at hq
        · exact h0
      exact Nat.div_lt_self hn (by omega)
    rw [toDigitsCore_acc b n (n / b) [Nat.digitChar (n % b)],
      toDigitsCore_fuel b hb n (n / b + 1) (n / b) [] hlt (by omega)]

theorem hex_fixed_zero (k : Nat) : hex_fixed k 0 = List.replicate k 48 := by
  induction k with
  | zero => rfl
  | succ k ih =>
    rw [hex_fixed, Nat.zero_div, ih, List.replicate_succ']
    rfl

theorem printf_pad_eq (k : Nat) :
    ∀ v : Nat, v < 16 ^ (k + 1) →
      List.replicate (k + 1 - ((Nat.toDigits 16 v).map Char.toNat).length) 48
          ++ (Nat.toDigits 16 v).map Char.toNat
        = hex_fixed (k + 1) v := by
  induction k with
  | zero =>
    intro v hv
    have hq : v / 16 = 0 := by omega
    rw [toDigits_rec 16 (by norm_num) v, if_pos hq]
    simp [hex_fixed]
  | succ k ih =>
    intro v hv
    rw [toDigits_rec 16 (by norm_num) v]
    by_cases hq : v / 16 = 0
    · rw [if_pos hq, hex_fixed, hq, hex_fixed_zero]
      simp
    · rw [if_neg hq, hex_fixed]
      have hv2 : v / 16 < 16 ^ (k + 1) := by
        rw [pow_succ] at hv
        omega
      rw [← ih (v / 16) hv2]
      simp only [List.map_append, List.length_append, List.map_cons, List.map_nil,
        List.length_cons, List.length_nil, List.append_assoc]
      congr 2
      omega

theorem printf_08x_eq (v : Nat) (hv : v < 2 ^ 32) : printf_08x v = hex_fixed 8 v := by
  unfold printf_08x
  exact printf_pad_eq 7 v (by norm_num; omega)

/-- C13: for every stratum value from 2 up and every payload bytes `b0 b1 b2 b3`, when the
address family is not `AF_INET` the printed refid is `0x` followed by exactly 8 lower-case
hexadecimal digits, zero-padded, of the big-endian integer
`v = b0*2^24 + b1*2^16 + b2*2^8 + b3`: digit `i` is the hexadecimal digit `v / 16^(7-i) % 16`.
Stratum 2 with bytes `01 02 03 04` gives `0x01020304`. -/
theorem C13_refid_hex_word (packet : List Nat) (v : Nat)
    (hb : ∀ k, k < 4 → packet.getD (12 + k) 0 < 256) (hs : 2 ≤ packet.getD 1 0)
    (hv : v = packet.getD 12 0 * 2 ^ 24 + packet.getD 13 0 * 2 ^ 16
      + packet.getD 14 0 * 2 ^ 8 + packet.getD 15 0) :
    sntp_query_refid false packet
      = ascii "0x" ++
          [(Nat.digitChar (v / 16 ^ 7 % 16)).toNat, (Nat.digitChar (v / 16 ^ 6 % 16)).toNat,
           (Nat.digitChar (v / 16 ^ 5 % 16)).toNat, (Nat.digitChar (v / 16 ^ 4 % 16)).toNat,
           (Nat.digitChar (v / 16 ^ 3 % 16)).toNat, (Nat.digitChar (v / 16 ^ 2 % 16)).toNat,
           (Nat.digitChar (v / 16 ^ 1 % 16)).toNat, (Nat.digitChar (v % 16)).toNat] ∧
    (sntp_query_refid false packet).length = 10 ∧
    sntp_query_refid false
        ([0x24, 2] ++ List.replicate 10 0 ++ [0x01, 0x02, 0x03, 0x04] ++ List.replicate 32 0)
      = ascii "0x01020304" := by
  have e := get_be32_eq packet 12 hb
  have h0 : packet.getD 12 0 < 256 := hb 0 (by norm_num)
  have h1 : packet.getD 13 0 < 256 := hb 1 (by norm_num)
  have h2 : packet.getD 14 0 < 256 := hb 2 (by norm_num)
  have h3 : packet.getD 15 0 < 256 := hb 3 (by norm_num)
  have e2 : get_be32 packet 12 = v := by rw [e, hv]
  have hlt : v < 2 ^ 32 := by
    rw [hv]
    omega
  have n0 : ¬ (packet.getD 1 0 = 0 ∨ packet.getD 1 0 = 1) := by omega
  have main : sntp_query_refid false packet = ascii "0x" ++ hex_fixed 8 v := by
    simp only [sntp_query_refid, n0, if_false, Bool.false_eq_true]
    rw [e2, printf_08x_eq v hlt]
  refine ⟨?_, ?_, by decide⟩
  · rw [main]
    simp only [hex_fixed, List.nil_append, List.cons_append, Nat.div_div_eq_div_mul]
    norm_num
  · rw [main]
    simp [hex_fixed, ascii]

/-- Witness for C13: a stratum-3 reply whose reference id is `DE AD BE EF`. -/
theorem C13_refid_hex_word_witness :
    sntp_query_refid false
        ([0x24, 3] ++ List.replicate 10 0 ++ [0xDE, 0xAD, 0xBE, 0xEF] ++ List.replicate 32 0)
      = ascii "0xdeadbeef" := by
  have h := (C13_refid_hex_word
    ([0x24, 3] ++ List.replicate 10 0 ++ [0xDE, 0xAD, 0xBE, 0xEF] ++ List.replicate 32 0)
    0xDEADBEEF (by intro k hk; interval_cases k <;> decide) (by decide) (by decide)).1
  rw [h]
  decide

/-! ## The whole query -/

theorem sntp_query_full_read (w : World) (bytes : List Nat)
    (h1 : w.socket_fails = false) (h2 : w.sendto_fails = false)
    (h3 : w.read_result = ReadResult.stored bytes) (h4 : bytes.length = 48) :
    sntp_query w =
      Outcome.report
        { li := (bytes.getD 0 0 >>> 6) &&& 3
          vn := (bytes.getD 0 0 >>> 3) &&& 7
          mode := bytes.getD 0 0 &&& 7
          stratum := bytes.getD 1 0
          poll := bytes.getD 2 0
          precision := to_int8 (bytes.getD 3 0)
          root_delay := get_short_ts_ms bytes 4
          root_dispersion := get_short_ts_ms bytes 8
          refid := sntp_query_refid w.family_is_AF_INET bytes
          ref := ntp_to_unix (get_be64 bytes 16)
          org := ntp_to_unix (ntp_gettimeofday w.send_time.1 w.send_time.2)
          rcv := ntp_to_unix (get_be64 bytes 32)
          xmt := ntp_to_unix (get_be64 bytes 40)
          dst := ntp_to_unix (ntp_gettimeofday w.recv_time.1 w.recv_time.2)
          offset := offset_theta (ntp_gettimeofday w.send_time.1 w.send_time.2)
            (get_be64 bytes 32) (get_be64 bytes 40)
            (ntp_gettimeofday w.recv_time.1 w.recv_time.2)
          delay := delay_delta (ntp_gettimeofday w.send_time.1 w.send_time.2)
            (get_be64 bytes 32) (get_be64 bytes 40)
            (ntp_gettimeofday w.recv_time.1 w.recv_time.2) }
        (if ntp_gettimeofday w.send_time.1 w.send_time.2 ≠ get_be64 bytes 24
          then some (ntp_gettimeofday w.send_time.1 w.send_time.2, get_be64 bytes 24)
          else none) := by
  have t : (bytes ++ List.drop 48
      (sntp_query_request (ntp_gettimeofday w.send_time.1 w.send_time.2))).take 48 = bytes :=
    List.take_left' h4
  unfold sntp_query
  simp only [h1, h2, h3, h4, t, Bool.false_eq_true, if_false, Nat.lt_irrefl, decide_False]

theorem sntp_query_short_read (w : World) (bytes : List Nat)
    (h1 : w.socket_fails = false) (h2 : w.sendto_fails = false)
    (h3 : w.read_result = ReadResult.stored bytes) (h4 : bytes.length < 48) :
    sntp_query w = if w.errno_is_EINTR then Outcome.skipping else Outcome.perror_read := by
  unfold sntp_query
  simp only [h1, h2, h3, h4, Bool.false_eq_true, if_false, decide_True, if_true]

theorem sntp_query_read_failed (w : World)
    (h1 : w.socket_fails = false) (h2 : w.sendto_fails = false)
    (h3 : w.read_result = ReadResult.failed) :
    sntp_query w = if w.errno_is_EINTR then Outcome.skipping else Outcome.perror_read := by
  unfold sntp_query
  simp only [h1, h2, h3, Bool.false_eq_true, if_false, if_true]

theorem get_be64_eq (buf : List Nat) (off : Nat)
    (h : ∀ k, k < 8 → buf.getD (off + k) 0 < 256) :
    get_be64 buf off
      = buf.getD (off + 0) 0 * 2 ^ 56 + buf.getD (off + 1) 0 * 2 ^ 48
          + buf.getD (off + 2) 0 * 2 ^ 40 + buf.getD (off + 3) 0 * 2 ^ 32
          + buf.getD (off + 4) 0 * 2 ^ 24 + buf.getD (off + 5) 0 * 2 ^ 16
          + buf.getD (off + 6) 0 * 2 ^ 8 + buf.getD (off + 7) 0 := by
  have hi := get_be32_eq buf off (fun k hk => h k (by omega))
  have lo := get_be32_eq buf (off + 4) (fun k hk => by
    have := h (4 + k) (by omega)
    rwa [← Nat.add_assoc] at this)
  have h0 := h 0 (by norm_num)
  have h1 := h 1 (by norm_num)
  have h2 := h 2 (by norm_num)
  have h3 := h 3 (by norm_num)
  have h4 : buf.getD (off + 4 + 0) 0 < 256 := h 4 (by norm_num)
  have h5 : buf.getD (off + 4 + 1) 0 < 256 := h 5 (by norm_num)
  have h6 : buf.getD (off + 4 + 2) 0 < 256 := h 6 (by norm_num)
  have h7 : buf.getD (off + 4 + 3) 0 < 256 := h 7 (by norm_num)
  have e4 : buf.getD (off + 4) 0 = buf.getD (off + 4 + 0) 0 := rfl
  have e5 : buf.getD (off + 5) 0 = buf.getD (off + 4 + 1) 0 := rfl
  have e6 : buf.getD (off + 6) 0 = buf.getD (off + 4 + 2) 0 := rfl
  have e7 : buf.getD (off + 7) 0 = buf.getD (off + 4 + 3) 0 := rfl
  rw [e4, e5, e6, e7]
  unfold get_be64
  rw [hi, lo, Nat.shiftLeft_eq]
  generalize buf.getD (off + 0) 0 = b0 at *
  generalize buf.getD (off + 1) 0 = b1 at *
  generalize buf.getD (off + 2) 0 = b2 at *
  generalize buf.getD (off + 3) 0 = b3 at *
  generalize buf.getD (off + 4 + 0) 0 = b4 at *
  generalize buf.getD (off + 4 + 1) 0 = b5 at *
  generalize buf.getD (off + 4 + 2) 0 = b6 at *
  generalize buf.getD (off + 4 + 3) 0 = b7 at *
  have m : (b0 * 2 ^ 24 + b1 * 2 ^ 16 + b2 * 2 ^ 8 + b3) * 2 ^ 32 % 2 ^ 64
      = 2 ^ 32 * (b0 * 2 ^ 24 + b1 * 2 ^ 16 + b2 * 2 ^ 8 + b3) := by
    omega
  rw [m, lor_eq_add _ _ 32 (by omega)]
  omega

theorem getD_set (l : List Nat) (i j a : Nat) :
    (l.set i a).getD j 0 = if i = j ∧ i < l.length then a else l.getD j 0 := by
  by_cases hij : i = j
  · subst hij
    by_cases hl : i < l.length
    · simp [List.getD_eq_getElem?_getD, List.getElem?_set, hl]
    · rw [List.set_eq_of_length_le (by omega)]
      simp [hl]
  · simp [List.getD_eq_getElem?_getD, List.getElem?_set, hij]

theorem put_be64_getD (x : Nat) (buf : List Nat) (off : Nat) (h : off + 8 ≤ buf.length) :
    (put_be64 x buf off).getD (off + 0) 0 = x / 2 ^ 56 % 256 ∧
    (put_be64 x buf off).getD (off + 1) 0 = x / 2 ^ 48 % 256 ∧
    (put_be64 x buf off).getD (off + 2) 0 = x / 2 ^ 40 % 256 ∧
    (put_be64 x buf off).getD (off + 3) 0 = x / 2 ^ 32 % 256 ∧
    (put_be64 x buf off).getD (off + 4) 0 = x / 2 ^ 24 % 256 ∧
    (put_be64 x buf off).getD (off + 5) 0 = x / 2 ^ 16 % 256 ∧
    (put_be64 x buf off).getD (off + 6) 0 = x / 2 ^ 8 % 256 ∧
    (put_be64 x buf off).getD (off + 7) 0 = x % 256 := by
  simp only [put_be64, and_ff, Nat.shiftRight_eq_div_pow, getD_set, List.length_set]
  refine ⟨?_, ?_, ?_, ?_, ?_, ?_, ?_, ?_⟩
  all_goals
    simp (disch := omega) only [if_pos, if_neg]
    exact if_pos ⟨trivial, by omega⟩

theorem get_be64_put_be64 (x : Nat) (buf : List Nat) (off : Nat)
    (hx : x < 2 ^ 64) (h : off + 8 ≤ buf.length) :
    get_be64 (put_be64 x buf off) off = x := by
  obtain ⟨p0, p1, p2, p3, p4, p5, p6, p7⟩ := put_be64_getD x buf off h
  have hb : ∀ k, k < 8 → (put_be64 x buf off).getD (off + k) 0 < 256 := by
    intro k hk
    interval_cases k
    · rw [p0]; omega
    · rw [p1]; omega
    · rw [p2]; omega
    · rw [p3]; omega
    · rw [p4]; omega
    · rw [p5]; omega
    · rw [p6]; omega
    · rw [p7]; omega
  rw [get_be64_eq _ _ hb, p0, p1, p2, p3, p4, p5, p6, p7]
  omega

theorem ntp_gettimeofday_lt (tv_sec tv_usec : Int) : ntp_gettimeofday tv_sec tv_usec < 2 ^ 64 := by
  unfold ntp_gettimeofday
  apply Nat.or_lt_two_pow
  · exact Nat.mod_lt _ (by norm_num)
  · exact lt_of_le_of_lt (Nat.div_le_self _ _) (Nat.mod_lt _ (by norm_num))

theorem get_be64_congr (a b : List Nat) (i j : Nat)
    (h : ∀ k, k < 8 → a.getD (i + k) 0 = b.getD (j + k) 0) : get_be64 a i = get_be64 b j := by
  have h0 := h 0 (by norm_num)
  have h1 := h 1 (by norm_num)
  have h2 := h 2 (by norm_num)
  have h3 := h 3 (by norm_num)
  have h4 : a.getD (i + 4 + 0) 0 = b.getD (j + 4 + 0) 0 := h 4 (by norm_num)
  have h5 : a.getD (i + 4 + 1) 0 = b.getD (j + 4 + 1) 0 := h 5 (by norm_num)
  have h6 : a.getD (i + 4 + 2) 0 = b.getD (j + 4 + 2) 0 := h 6 (by norm_num)
  have h7 : a.getD (i + 4 + 3) 0 = b.getD (j + 4 + 3) 0 := h 7 (by norm_num)
  unfold get_be64 get_be32
  rw [h0, h1, h2, h3, h4, h5, h6, h7]

theorem and_3 (i : Nat) : i &&& 3 = i % 4 := by
  have h : (3 : Nat) = 2 ^ 2 - 1 := by norm_num
  rw [h, Nat.and_pow_two_sub_one_eq_mod]

theorem and_7 (i : Nat) : i &&& 7 = i % 8 := by
  have h : (7 : Nat) = 2 ^ 3 - 1 := by norm_num
  rw [h, Nat.and_pow_two_sub_one_eq_mod]

/-- C14: for every 48-byte response with header bytes `b0..b3`, the report has
`li = b0 >> 6` (0..3), `vn = (b0 >> 3) & 7` (0..7), `mode = b0 & 7` (0..7) with
`li*64 + vn*8 + mode = b0`, `stratum = b1`, `poll = b2`, and `precision = b3` read as a
signed byte; on the header bytes of the client's own request it has `li = 3`, `vn = 4`,
`mode = 3`, `stratum = 16`. -/
theorem C14_header_decode (w : World) (bytes : List Nat)
    (h1 : w.socket_fails = false) (h2 : w.sendto_fails = false)
    (h3 : w.read_result = ReadResult.stored bytes) (h4 : bytes.length = 48)
    (hb : ∀ k, k < 4 → bytes.getD k 0 < 256) :
    ∃ r m, sntp_query w = Outcome.report r m ∧
      r.li = bytes.getD 0 0 >>> 6 ∧ r.li ≤ 3 ∧
      r.vn = (bytes.getD 0 0 >>> 3) &&& 7 ∧ r.vn ≤ 7 ∧
      r.mode = bytes.getD 0 0 &&& 7 ∧ r.mode ≤ 7 ∧
      r.li * 64 + r.vn * 8 + r.mode = bytes.getD 0 0 ∧
      r.stratum = bytes.getD 1 0 ∧ r.stratum ≤ 255 ∧
      r.poll = bytes.getD 2 0 ∧ r.poll ≤ 255 ∧
      r.precision = (if bytes.getD 3 0 < 128 then (bytes.getD 3 0 : Int)
        else (bytes.getD 3 0 : Int) - 256) ∧
      (∀ org, (∀ k, k < 4 → bytes.getD k 0 = (sntp_query_request org).getD k 0) →
        r.li = 3 ∧ r.vn = 4 ∧ r.mode = 3 ∧ r.stratum = 16) := by
  have b0 := hb 0 (by norm_num)
  have b1 := hb 1 (by norm_num)
  have b2 := hb 2 (by norm_num)
  refine ⟨_, _, sntp_query_full_read w bytes h1 h2 h3 h4, ?_⟩
  refine ⟨?_, ?_, rfl, ?_, rfl, ?_, ?_, rfl, Nat.le_of_lt_succ b1, rfl, Nat.le_of_lt_succ b2, rfl, ?_⟩
  · simp only [and_3, Nat.shiftRight_eq_div_pow]
    omega
  · simp only [and_3, Nat.shiftRight_eq_div_pow]
    omega
  · simp only [and_7, Nat.shiftRight_eq_div_pow]
    omega
  · simp only [and_7]
    omega
  · simp only [and_3, and_7, Nat.shiftRight_eq_div_pow]
    omega
  · intro org ho
    have e0 := ho 0 (by norm_num)
    have e1 := ho 1 (by norm_num)
    rw [request_eq] at e0 e1
    have v0 : bytes.getD 0 0 = 0xE3 := e0
    have v1 : bytes.getD 1 0 = 16 := e1
    simp only [v0, v1]
    decide

/-- Witness for C14: a reply with header bytes `24 02 06 E9` (no warning, version 4, server
mode, stratum 2, poll 6, precision -23). -/
theorem C14_header_decode_witness :
    ∃ r m, sntp_query (reply_world false (0, 0) (0, 5)
        ([0x24, 0x02, 0x06, 0xE9] ++ List.replicate 44 0) false) = Outcome.report r m ∧
      r.li = 0 ∧ r.vn = 4 ∧ r.mode = 4 ∧ r.stratum = 2 ∧ r.poll = 6 ∧ r.precision = -23 := by
  obtain ⟨r, m, hr, a1, _, a2, _, a3, _, _, a4, _, a5, _, a6, _⟩ :=
    C14_header_decode (reply_world false (0, 0) (0, 5)
      ([0x24, 0x02, 0x06, 0xE9] ++ List.replicate 44 0) false)
      ([0x24, 0x02, 0x06, 0xE9] ++ List.replicate 44 0) rfl rfl rfl (by decide)
      (by intro k hk; interval_cases k <;> decide)
  refine ⟨r, m, hr, ?_, ?_, ?_, ?_, ?_, ?_⟩
  · rw [a1]; decide
  · rw [a2]; decide
  · rw [a3]; decide
  · rw [a4]; decide
  · rw [a5]; decide
  · rw [a6]; decide

/-- C15: for every 48-byte response and every sent `org`, the line
`our org is ... but the server replied with ...` is written if and only if the big-endian
64-bit word at response bytes 24..31 differs from `org`, and it then carries these two
numbers; in both cases the query ends with the full report, whose offset and delay are
computed from the `org` the client sent, the response's `rcv` and `xmt`, and `dst`. -/
theorem C15_integrity_check (w : World) (bytes : List Nat)
    (h1 : w.socket_fails = false) (h2 : w.sendto_fails = false)
    (h3 : w.read_result = ReadResult.stored bytes) (h4 : bytes.length = 48)
    (hb : ∀ k, k < 8 → bytes.getD (24 + k) 0 < 256) :
    ∃ r m, sntp_query w = Outcome.report r m ∧
      (m ≠ none ↔
        bytes.getD 24 0 * 2 ^ 56 + bytes.getD 25 0 * 2 ^ 48 + bytes.getD 26 0 * 2 ^ 40
          + bytes.getD 27 0 * 2 ^ 32 + bytes.getD 28 0 * 2 ^ 24 + bytes.getD 29 0 * 2 ^ 16
          + bytes.getD 30 0 * 2 ^ 8 + bytes.getD 31 0
          ≠ ntp_gettimeofday w.send_time.1 w.send_time.2) ∧
      (m ≠ none →
        m = some (ntp_gettimeofday w.send_time.1 w.send_time.2,
          bytes.getD 24 0 * 2 ^ 56 + bytes.getD 25 0 * 2 ^ 48 + bytes.getD 26 0 * 2 ^ 40
            + bytes.getD 27 0 * 2 ^ 32 + bytes.getD 28 0 * 2 ^ 24 + bytes.getD 29 0 * 2 ^ 16
            + bytes.getD 30 0 * 2 ^ 8 + bytes.getD 31 0)) ∧
      r.offset = offset_theta (ntp_gettimeofday w.send_time.1 w.send_time.2)
        (get_be64 bytes 32) (get_be64 bytes 40)
        (ntp_gettimeofday w.recv_time.1 w.recv_time.2) ∧
      r.delay = delay_delta (ntp_gettimeofday w.send_time.1 w.send_time.2)
        (get_be64 bytes 32) (get_be64 bytes 40)
        (ntp_gettimeofday w.recv_time.1 w.recv_time.2) := by
  have e : get_be64 bytes 24
      = bytes.getD 24 0 * 2 ^ 56 + bytes.getD 25 0 * 2 ^ 48 + bytes.getD 26 0 * 2 ^ 40
          + bytes.getD 27 0 * 2 ^ 32 + bytes.getD 28 0 * 2 ^ 24 + bytes.getD 29 0 * 2 ^ 16
          + bytes.getD 30 0 * 2 ^ 8 + bytes.getD 31 0 := get_be64_eq bytes 24 hb
  refine ⟨_, _, sntp_query_full_read w bytes h1 h2 h3 h4, ?_, ?_, rfl, rfl⟩
  · rw [← e]
    by_cases hm : ntp_gettimeofday w.send_time.1 w.send_time.2 = get_be64 bytes 24
    · simp [hm]
    · simp only [ne_eq, hm, not_false_eq_true, if_true]
      constructor
      · intro _ hc
        exact hm hc.symm
      · intro _
        exact Option.some_ne_none _
  · rw [← e]
    by_cases hm : ntp_gettimeofday w.send_time.1 w.send_time.2 = get_be64 bytes 24
    · simp [hm]
    · simp [hm]

/-- Witness for C15: a reply of 48 zero bytes to a request sent at Unix time 0; the echoed
originate timestamp is 0 while `org` is `2208988800 * 2^32`, so the warning is written
and the report is still produced. -/
theorem C15_integrity_check_witness :
    ∃ r m, sntp_query (reply_world false (0, 0) (0, 5) (List.replicate 48 0) false)
        = Outcome.report r m ∧ m = some (2208988800 * 2 ^ 32, 0) := by
  obtain ⟨r, m, hr, a, b, _, _⟩ :=
    C15_integrity_check (reply_world false (0, 0) (0, 5) (List.replicate 48 0) false)
      (List.replicate 48 0) rfl rfl rfl (by decide)
      (by intro k hk; interval_cases k <;> decide)
  have hne : m ≠ none := a.mpr (by decide)
  exact ⟨r, m, hr, b hne⟩

/-- C16 fails on the code: a `read` that returns 47 bytes without error while `errno`
still holds `EINTR` (left by an earlier interrupted call) makes `sntp_query` print
`skipping`, the outcome of an interrupted query, not the `read` error; with any other
`errno` the same read is reported through `perror("read")`. -/
theorem C16_short_read_stale_errno :
    sntp_query (reply_world false (0, 0) (0, 5) (List.replicate 47 0) true)
      = Outcome.skipping ∧
    sntp_query (reply_world false (0, 0) (0, 5) (List.replicate 47 0) false)
      = Outcome.perror_read :=
  ⟨sntp_query_short_read _ (List.replicate 47 0) rfl rfl rfl (by decide),
   sntp_query_short_read _ (List.replicate 47 0) rfl rfl rfl (by decide)⟩

/-- C17: when `read` fails with `errno = EINTR` the query ends with `skipping`; when it
fails with any other `errno` it ends with `perror("read")`; the two outcomes are
different, and in neither is a report or the mismatch warning written. -/
theorem C17_interrupted_read (w : World)
    (h1 : w.socket_fails = false) (h2 : w.sendto_fails = false)
    (h3 : w.read_result = ReadResult.failed) :
    (w.errno_is_EINTR = true → sntp_query w = Outcome.skipping) ∧
    (w.errno_is_EINTR = false → sntp_query w = Outcome.perror_read) ∧
    Outcome.skipping ≠ Outcome.perror_read ∧
    (∀ r m, sntp_query w ≠ Outcome.report r m) := by
  have e := sntp_query_read_failed w h1 h2 h3
  refine ⟨?_, ?_, ?_, ?_⟩
  · intro he
    rw [e, he]
    rfl
  · intro he
    rw [e, he]
    rfl
  · intro hc
    cases hc
  · intro r m hc
    rw [e] at hc
    cases hi : w.errno_is_EINTR <;> rw [hi] at hc <;> cases hc

/-- Witness for C17: an IPv6 query whose `read` is interrupted. -/
theorem C17_interrupted_read_witness :
    sntp_query
        { family_is_AF_INET := false, socket_fails := false, send_time := (1700000000, 0),
          sendto_fails := false, read_result := ReadResult.failed, errno_is_EINTR := true,
          recv_time := (1700000003, 0) }
      = Outcome.skipping :=
  (C17_interrupted_read _ rfl rfl rfl).1 rfl

/-- C18, as stated, fails: for a request sent at Unix time 0 (`org = 2208988800 * 2^32`)
and a reply of 48 zero bytes, the `org` value of the report is `ntp_to_unix(org) = 0`, the
client's own timestamp, while the originate field of the response (bytes 24..31, all zero)
decodes to `-2208988800`. -/
theorem C18_counterexample :
    ∃ r m, sntp_query (reply_world false (0, 0) (0, 5) (List.replicate 48 0) false)
        = Outcome.report r m ∧
      r.org = 0 ∧
      ntp_to_unix (get_be64 (List.replicate 48 0) 24) = -2208988800 ∧
      r.org ≠ ntp_to_unix (get_be64 (List.replicate 48 0) 24) := by
  have a : int_to_double (int_to_double (ntp_gettimeofday 0 0 : Nat)
      - (NTP_EPOCH : Int) * 2 ^ 32) = 0 := by decide
  have b : int_to_double (int_to_double (get_be64 (List.replicate 48 0) 24 : Nat)
      - (NTP_EPOCH : Int) * 2 ^ 32) = -(2208988800 * 2 ^ 32) := by decide
  have va : ntp_to_unix (ntp_gettimeofday 0 0) = 0 := by
    rw [ntp_to_unix, a]; norm_num
  have vb : ntp_to_unix (get_be64 (List.replicate 48 0) 24) = -2208988800 := by
    rw [ntp_to_unix, b]; norm_num
  refine ⟨_, _, sntp_query_full_read _ (List.replicate 48 0) rfl rfl rfl (by decide), ?_, vb, ?_⟩
  · exact va
  · show ntp_to_unix (ntp_gettimeofday 0 0) ≠ _
    rw [va, vb]
    norm_num

theorem get_be32_congr (a b : List Nat) (i j : Nat)
    (h : ∀ k, k < 4 → a.getD (i + k) 0 = b.getD (j + k) 0) : get_be32 a i = get_be32 b j := by
  have h0 := h 0 (by norm_num)
  have h1 := h 1 (by norm_num)
  have h2 := h 2 (by norm_num)
  have h3 := h 3 (by norm_num)
  unfold get_be32
  rw [h0, h1, h2, h3]

theorem sntp_query_refid_congr (family_is_AF_INET : Bool) (a b : List Nat)
    (hs : a.getD 1 0 = b.getD 1 0)
    (h : ∀ k, k < 4 → a.getD (12 + k) 0 = b.getD (12 + k) 0) :
    sntp_query_refid family_is_AF_INET a = sntp_query_refid family_is_AF_INET b := by
  have h0 : a.getD 12 0 = b.getD 12 0 := h 0 (by norm_num)
  have h1 : a.getD 13 0 = b.getD 13 0 := h 1 (by norm_num)
  have h2 : a.getD 14 0 = b.getD 14 0 := h 2 (by norm_num)
  have h3 : a.getD 15 0 = b.getD 15 0 := h 3 (by norm_num)
  unfold sntp_query_refid
  rw [hs, h0, h1, h2, h3, get_be32_congr a b 12 12 h]

/-- C18 (amended): for every 48-byte response, the `org` value of the report is
`ntp_to_unix` of the `org` the client sent, not of the response: the report is the same
whatever the response bytes 24..31 hold, and the big-endian word at these bytes appears
only as the second number of the mismatch warning, when that is written.  Whenever no
warning is written the `org` value equals the decoding of that word; it can also equal it
when the warning is written, as for a word that differs from `org` by 1 and decodes to the
same `double`.  The other response timestamps `ref`, `rcv` and `xmt` are decoded from bytes
16..23, 32..39 and 40..47. -/
theorem C18_report_org_is_sent_org (w : World) (bytes : List Nat)
    (h1 : w.socket_fails = false) (h2 : w.sendto_fails = false)
    (h3 : w.read_result = ReadResult.stored bytes) (h4 : bytes.length = 48) :
    (∃ r m, sntp_query w = Outcome.report r m ∧
      r.org = ntp_to_unix (ntp_gettimeofday w.send_time.1 w.send_time.2) ∧
      (m = none → r.org = ntp_to_unix (get_be64 bytes 24)) ∧
      (∀ p, m = some p →
        p = (ntp_gettimeofday w.send_time.1 w.send_time.2, get_be64 bytes 24)) ∧
      r.ref = ntp_to_unix (get_be64 bytes 16) ∧
      r.rcv = ntp_to_unix (get_be64 bytes 32) ∧
      r.xmt = ntp_to_unix (get_be64 bytes 40) ∧
      r.dst = ntp_to_unix (ntp_gettimeofday w.recv_time.1 w.recv_time.2) ∧
      (∀ other : List Nat, other.length = 48 →
        (∀ k, k < 24 ∨ 32 ≤ k → other.getD k 0 = bytes.getD k 0) →
        ∃ m2, sntp_query { w with read_result := ReadResult.stored other }
          = Outcome.report r m2)) ∧
    (∃ r m, sntp_query (reply_world false (0, 0) (0, 5)
          (List.replicate 24 0 ++ [0x83, 0xAA, 0x7E, 0x80, 0, 0, 0, 1] ++ List.replicate 16 0)
          false) = Outcome.report r m ∧
      m = some (2208988800 * 2 ^ 32, 2208988800 * 2 ^ 32 + 1) ∧
      r.org = ntp_to_unix (get_be64
        (List.replicate 24 0 ++ [0x83, 0xAA, 0x7E, 0x80, 0, 0, 0, 1] ++ List.replicate 16 0)
        24)) := by
  constructor
  · refine ⟨_, _, sntp_query_full_read w bytes h1 h2 h3 h4, rfl, ?_, ?_, rfl, rfl, rfl, rfl, ?_⟩
    · intro hm
      by_cases he : ntp_gettimeofday w.send_time.1 w.send_time.2 = get_be64 bytes 24
      · show ntp_to_unix (ntp_gettimeofday w.send_time.1 w.send_time.2) = _
        rw [he]
      · simp [he] at hm
    · intro p hp
      by_cases he : ntp_gettimeofday w.send_time.1 w.send_time.2 = get_be64 bytes 24
      · simp [he] at hp
      · simp only [ne_eq, he, not_false_eq_true, if_true, Option.some.injEq] at hp
        exact hp.symm
    · intro other ho hc
      refine ⟨if ntp_gettimeofday w.send_time.1 w.send_time.2 ≠ get_be64 other 24
        then some (ntp_gettimeofday w.send_time.1 w.send_time.2, get_be64 other 24)
        else none, ?_⟩
      rw [sntp_query_full_read { w with read_result := ReadResult.stored other } other
        h1 h2 rfl ho]
      have g0 := hc 0 (by omega)
      have g1 := hc 1 (by omega)
      have g2 := hc 2 (by omega)
      have g3 := hc 3 (by omega)
      have s4 := get_be32_congr other bytes 4 4 (fun k hk => hc (4 + k) (by omega))
      have s8 := get_be32_congr other bytes 8 8 (fun k hk => hc (8 + k) (by omega))
      have rf := sntp_query_refid_congr w.family_is_AF_INET other bytes g1
        (fun k hk => hc (12 + k) (by omega))
      have t16 := get_be64_congr other bytes 16 16 (fun k hk => hc (16 + k) (by omega))
      have t32 := get_be64_congr other bytes 32 32 (fun k hk => hc (32 + k) (by omega))
      have t40 := get_be64_congr other bytes 40 40 (fun k hk => hc (40 + k) (by omega))
      simp only [get_short_ts_ms, g0, g1, g2, g3, s4, s8, rf, t16, t32, t40]
  · have a : ntp_gettimeofday 0 0 = 2208988800 * 2 ^ 32 := by decide
    have b : get_be64 (List.replicate 24 0 ++ [0x83, 0xAA, 0x7E, 0x80, 0, 0, 0, 1]
        ++ List.replicate 16 0) 24 = 2208988800 * 2 ^ 32 + 1 := by decide
    have c : int_to_double ((2208988800 * 2 ^ 32 + 1 : Nat) : Int)
        = int_to_double ((2208988800 * 2 ^ 32 : Nat) : Int) := by decide
    refine ⟨_, _, sntp_query_full_read _ (List.replicate 24 0
      ++ [0x83, 0xAA, 0x7E, 0x80, 0, 0, 0, 1] ++ List.replicate 16 0) rfl rfl rfl (by decide),
      ?_, ?_⟩
    · show (if ntp_gettimeofday 0 0 ≠ _ then some (ntp_gettimeofday 0 0, _) else none) = _
      rw [a, b]
      simp
    · show ntp_to_unix (ntp_gettimeofday 0 0) = _
      rw [a, b, ntp_to_unix, ntp_to_unix, c]

/-- Witness for C18 (amended): the reply of 48 zero bytes to a request sent at Unix
time 0; the report shows the client's own `org` and the warning carries the echoed 0. -/
theorem C18_report_org_is_sent_org_witness :
    ∃ r m, sntp_query (reply_world false (0, 0) (0, 5) (List.replicate 48 0) false)
        = Outcome.report r m ∧
      r.org = ntp_to_unix (ntp_gettimeofday 0 0) := by
  obtain ⟨r, m, hr, a, _⟩ :=
    (C18_report_org_is_sent_org (reply_world false (0, 0) (0, 5) (List.replicate 48 0) false)
      (List.replicate 48 0) rfl rfl rfl (by decide)).1
  exact ⟨r, m, hr, a⟩

/-- C19: `get_be64` inverts `put_be64`: for every `uint64_t` value `x`, reading with
`get_be64` the 8 bytes written by `put_be64(x)` returns `x`; hence for a 48-byte reply
whose bytes 24..31 are the request's bytes 40..47 the echoed originate timestamp decodes
to exactly the sent `org` and no mismatch warning is written. -/
theorem C19_get_be64_inverts_put_be64 (x : Nat) (hx : x < 2 ^ 64) :
    (∀ (buf : List Nat) (off : Nat), off + 8 ≤ buf.length →
      get_be64 (put_be64 x buf off) off = x) ∧
    get_be64 (sntp_query_request x) 40 = x ∧
    (∀ (w : World) (bytes : List Nat),
      w.socket_fails = false → w.sendto_fails = false →
      w.read_result = ReadResult.stored bytes → bytes.length = 48 →
      (∀ k, k < 8 → bytes.getD (24 + k) 0
        = (sntp_query_request (ntp_gettimeofday w.send_time.1 w.send_time.2)).getD (40 + k) 0) →
      get_be64 bytes 24 = ntp_gettimeofday w.send_time.1 w.send_time.2 ∧
      ∃ r, sntp_query w = Outcome.report r none) := by
  have rq : ∀ y, y < 2 ^ 64 → get_be64 (sntp_query_request y) 40 = y := by
    intro y hy
    unfold sntp_query_request
    exact get_be64_put_be64 y _ 40 hy (by simp)
  refine ⟨fun buf off h => get_be64_put_be64 x buf off hx h, rq x hx, ?_⟩
  intro w bytes h1 h2 h3 h4 hc
  have e : get_be64 bytes 24 = ntp_gettimeofday w.send_time.1 w.send_time.2 := by
    rw [get_be64_congr bytes _ 24 40 hc]
    exact rq _ (ntp_gettimeofday_lt _ _)
  have f := sntp_query_full_read w bytes h1 h2 h3 h4
  rw [e] at f
  simp only [ne_eq, not_true_eq_false, if_false] at f
  exact ⟨e, _, f⟩

/-- Witness for C19: the value `2^64 - 1`, with top bit and bit 31 set, written at
offset 3 of a 12-byte buffer. -/
theorem C19_get_be64_inverts_put_be64_witness :
    get_be64 (put_be64 (2 ^ 64 - 1) (List.replicate 12 0) 3) 3 = 2 ^ 64 - 1 :=
  (C19_get_be64_inverts_put_be64 (2 ^ 64 - 1) (by norm_num)).1 (List.replicate 12 0) 3
    (by decide)

theorem u64_sub_shift (a b k : Nat) :
    u64_sub ((a + k) % 2 ^ 64) ((b + k) % 2 ^ 64) = u64_sub a b := by
  unfold u64_sub
  omega

/-- C20: adding the same `k` to the four timestamps, each sum taken modulo `2^64`, leaves
the printed offset and the printed delay unchanged, so an exchange straddling a rollover
of the 32-bit seconds field gives the same offset and delay as the same exchange away
from it. -/
theorem C20_translation_invariance (org rcv xmt dst k : Nat) :
    offset_theta ((org + k) % 2 ^ 64) ((rcv + k) % 2 ^ 64) ((xmt + k) % 2 ^ 64)
        ((dst + k) % 2 ^ 64)
      = offset_theta org rcv xmt dst ∧
    delay_delta ((org + k) % 2 ^ 64) ((rcv + k) % 2 ^ 64) ((xmt + k) % 2 ^ 64)
        ((dst + k) % 2 ^ 64)
      = delay_delta org rcv xmt dst := by
  unfold offset_theta delay_delta
  rw [u64_sub_shift rcv org k, u64_sub_shift dst xmt k, u64_sub_shift dst org k,
    u64_sub_shift xmt rcv k]
  exact ⟨rfl, rfl⟩

end NtpQuery
